import Mathlib

/-
Shallow embedding of the voxel-world core of the ndrcraft repository
(src/voxel.rs, src/graphics/texture.rs, src/types.rs), together with
proofs about its specification.

Modelling conventions:
* Rust u32 values are Nat; where u32 arithmetic can wrap we reduce
  modulo 2^32 explicitly (release-profile wrapping semantics).
* Rust i32 / i64 values are Int; the composite of a wrapping i32
  subtraction followed by an `as u32` cast equals reduction modulo 2^32,
  and an `as i32` narrowing of an i64 is modelled by wrap32 below.
* usize values are Nat. An `i32 as usize` cast is the sign extension of
  the wrapped i32 value: toUsize (wrap32 d), which keeps a nonnegative
  wrapped value and sends a negative one to 2^64 + value. The index
  polynomial over already-reduced usize inputs is reduced modulo 2^64
  once at the end; reduction modulo 2^64 is a ring homomorphism, so
  this agrees with Rust's per-operation wrapping.
* Rust's panicking slice indexing (self.voxel_data[i] inside the
  set_voxel body) is totalized: List.set drops an out-of-range write
  and List.getD reads the default record there. Every claim about the
  contents of a store that the source would index out of range (which
  needs a well-formed world with a dimension above 2^31) is therefore
  stated only under the smallDims restriction, under which every index
  the body uses is in range and the totalization is never exercised;
  the frame theorem, whose conclusions only concern lookups that both
  worlds resolve identically, is the one statement proved without it.
* f32 vertex data is modelled over the rationals, with decimal literals
  taken exactly; this affects no claim, which only inspect vertex counts.
* GPU handles (wgpu device, queue, buffers) carry no data relevant to the
  specification; a texture write is modelled by returning the validated
  write call (origin, extent, bytes) that the code submits to the queue.
-/

namespace Ndrcraft

/-! Machine-integer helpers. -/

def U32_MOD : Nat := 4294967296

def U64_MOD : Nat := 18446744073709551616

def I32_MIN : Int := -2147483648

def I32_MAX : Int := 2147483647

/-- Rust: wrapping i32 subtraction/addition followed by `as u32`
(the composite is plain reduction modulo 2^32). -/
def toU32 (z : Int) : Nat := (z % (U32_MOD : Int)).toNat

/-- Rust: i32 → usize cast (sign extension then reinterpretation),
i.e. reduction modulo 2^64. -/
def toUsize (z : Int) : Nat := (z % (U64_MOD : Int)).toNat

/-- Rust: narrowing `as i32` of a wider signed value (wrap into i32 range). -/
def wrap32 (z : Int) : Int := (z + 2147483648) % (U32_MOD : Int) - 2147483648

/-- An Int that fits in an i32. -/
def isI32 (z : Int) : Prop := I32_MIN ≤ z ∧ z ≤ I32_MAX

instance (z : Int) : Decidable (isI32 z) := by
  unfold isI32; infer_instance

/-! Vector and color types (src/types.rs), over ℚ in place of f32. -/

structure Vector2 where
  x : ℚ
  y : ℚ
deriving DecidableEq

structure Vector3 where
  x : ℚ
  y : ℚ
  z : ℚ
deriving DecidableEq

def Vector3.add (a b : Vector3) : Vector3 := ⟨a.x + b.x, a.y + b.y, a.z + b.z⟩

structure Color where
  r : ℚ
  g : ℚ
  b : ℚ
  a : ℚ
deriving DecidableEq

def Color.white : Color := ⟨1, 1, 1, 1⟩

/-- Offset3d with i32 components (src/types.rs). -/
structure Offset3 where
  x : Int
  y : Int
  z : Int
deriving DecidableEq

/-- Offset3d with u32 components, used for texture origins. -/
structure UOffset3 where
  x : Nat
  y : Nat
  z : Nat
deriving DecidableEq

/-- Extent3d with u32 components (src/types.rs). -/
structure Extent3 where
  width : Nat
  height : Nat
  depth : Nat
deriving DecidableEq

/-- Extent2d with u32 components (src/types.rs). -/
structure Extent2 where
  width : Nat
  height : Nat
deriving DecidableEq

/-- Extent3d::is_valid: every component strictly positive (src/types.rs). -/
def Extent3.is_valid (e : Extent3) : Bool :=
  decide (0 < e.width) && decide (0 < e.height) && decide (0 < e.depth)

/-- Extent2d::is_valid (src/types.rs). -/
def Extent2.is_valid (e : Extent2) : Bool :=
  decide (0 < e.width) && decide (0 < e.height)

/-! Texture collaborator (src/graphics/texture.rs). -/

inductive TextureError where
  | PixelsInvalid
  | OriginInvalid
  | SizeInvalid
deriving DecidableEq

inductive TextureFormat where
  | Rgba8Unorm
deriving DecidableEq

/-- wgpu block size of the format (4 bytes for Rgba8Unorm). -/
def TextureFormat.block_size : TextureFormat → Nat
  | .Rgba8Unorm => 4

inductive FilterMode where
  | Nearest
  | Linear
deriving DecidableEq

inductive AddressMode where
  | ClampToEdge
  | Repeat
  | MirrorRepeat
deriving DecidableEq

structure Sampler where
  filter : FilterMode
  address : AddressMode
deriving DecidableEq

inductive TextureSize where
  | D2 (size : Extent2)
deriving DecidableEq

def TextureSize.is_valid : TextureSize → Bool
  | .D2 size => size.is_valid

/-- Size::get_extent_dimension: the wgpu extent, whose
depth_or_array_layers defaults to 1 for a 2-D texture. -/
def TextureSize.extent : TextureSize → Extent3
  | .D2 size => ⟨size.width, size.height, 1⟩

/-- The texture resource. GPU queue and handle carry no specification
data; the stored fields are those the write path reads. -/
structure Texture where
  size : TextureSize
  format : TextureFormat
  sampler : Option Sampler
deriving DecidableEq

/-- The write submitted to the GPU queue on a successful region write:
models the queue.write_texture call at the end of Texture::write_texture. -/
structure WriteCall where
  origin : UOffset3
  size : Extent3
  pixels : List Nat
deriving DecidableEq

/-- Texture::write_texture (src/graphics/texture.rs lines 186-229):
validates the region and buffer, then submits the write. u32 additions
and multiplications wrap modulo 2^32. -/
def Texture.write_texture (texture_size : Extent3) (format_size : Nat)
    (origin : UOffset3) (size : Extent3) (pixels : List Nat) :
    Except TextureError WriteCall :=
  if size.is_valid = false then .error .SizeInvalid
  else
    let origin_size : Extent3 :=
      ⟨(origin.x + size.width) % U32_MOD,
       (origin.y + size.height) % U32_MOD,
       (origin.z + size.depth) % U32_MOD⟩
    if texture_size.width < origin_size.width
        ∨ texture_size.height < origin_size.height
        ∨ texture_size.depth < origin_size.depth then .error .OriginInvalid
    else if pixels.length <
        (format_size * size.width * size.height * size.depth) % U32_MOD then
      .error .PixelsInvalid
    else .ok ⟨origin, size, pixels⟩

/-- Texture::write: region write against this texture. -/
def Texture.write (t : Texture) (origin : UOffset3) (size : Extent3)
    (pixels : List Nat) : Except TextureError WriteCall :=
  Texture.write_texture t.size.extent t.format.block_size origin size pixels

/-- Texture::new (src/graphics/texture.rs lines 104-147): validates the
size, creates the handle, and optionally writes initial pixels over the
whole texture. -/
def Texture.new (size : TextureSize) (format : TextureFormat)
    (sampler : Option Sampler) (pixels : Option (List Nat)) :
    Except TextureError Texture :=
  if size.is_valid = false then .error .SizeInvalid
  else
    let t : Texture := ⟨size, format, sampler⟩
    match pixels with
    | some px =>
      (Texture.write_texture size.extent format.block_size ⟨0, 0, 0⟩
        size.extent px).map (fun _ => t)
    | none => .ok t

/-! Voxel data model (src/voxel.rs). -/

inductive Voxel where
  | Void
  | Tile (tile_index : Nat)
deriving DecidableEq

inductive Face where
  | PosX
  | NegX
  | PosY
  | NegY
  | PosZ
  | NegZ
deriving DecidableEq

def Face.MAX_COUNT : Nat := 6

/-- Face::from_index (indices 0..5; other values are unreachable in the
code and mapped arbitrarily to PosX). -/
def Face.from_index : Nat → Face
  | 0 => .PosX
  | 1 => .NegX
  | 2 => .PosY
  | 3 => .NegY
  | 4 => .PosZ
  | 5 => .NegZ
  | _ => .PosX

def Face.opposite : Face → Face
  | .PosX => .NegX
  | .NegX => .PosX
  | .PosY => .NegY
  | .NegY => .PosY
  | .PosZ => .NegZ
  | .NegZ => .PosZ

/-- Face::get_adjacent_voxel_position. -/
def Face.get_adjacent_voxel_position : Face → Offset3
  | .PosX => ⟨1, 0, 0⟩
  | .NegX => ⟨-1, 0, 0⟩
  | .PosY => ⟨0, 1, 0⟩
  | .NegY => ⟨0, -1, 0⟩
  | .PosZ => ⟨0, 0, 1⟩
  | .NegZ => ⟨0, 0, -1⟩

/-- The bitflags Faces set (one bit per cardinal direction), modelled as
six booleans. -/
structure Faces where
  pos_x : Bool
  neg_x : Bool
  pos_y : Bool
  neg_y : Bool
  pos_z : Bool
  neg_z : Bool
deriving DecidableEq

def Faces.empty : Faces := ⟨false, false, false, false, false, false⟩

/-- bitflags insert (set the bit of the given face). -/
def Faces.insert (s : Faces) : Face → Faces
  | .PosX => { s with pos_x := true }
  | .NegX => { s with neg_x := true }
  | .PosY => { s with pos_y := true }
  | .NegY => { s with neg_y := true }
  | .PosZ => { s with pos_z := true }
  | .NegZ => { s with neg_z := true }

/-- bitflags remove (clear the bit of the given face). -/
def Faces.remove (s : Faces) : Face → Faces
  | .PosX => { s with pos_x := false }
  | .NegX => { s with neg_x := false }
  | .PosY => { s with pos_y := false }
  | .NegY => { s with neg_y := false }
  | .PosZ => { s with pos_z := false }
  | .NegZ => { s with neg_z := false }

/-- bitflags contains (test the bit of the given face). -/
def Faces.contains (s : Faces) : Face → Bool
  | .PosX => s.pos_x
  | .NegX => s.neg_x
  | .PosY => s.pos_y
  | .NegY => s.neg_y
  | .PosZ => s.pos_z
  | .NegZ => s.neg_z

/-- Write one face bit to a given value: insert is setFlag true and
remove is setFlag false (used to analyse the update loop). -/
def Faces.setFlag (s : Faces) (f : Face) (b : Bool) : Faces :=
  match f with
  | .PosX => { s with pos_x := b }
  | .NegX => { s with neg_x := b }
  | .PosY => { s with pos_y := b }
  | .NegY => { s with neg_y := b }
  | .PosZ => { s with pos_z := b }
  | .NegZ => { s with neg_z := b }

structure VoxelData where
  voxel : Voxel
  faces : Faces
deriving DecidableEq

/-- Default VoxelData: Void with no faces set. -/
def VoxelData.default : VoxelData := ⟨.Void, Faces.empty⟩

/-! Mesh collaborator (src/graphics/mesh.rs): the vertex list is the
only state the voxel core reads or writes. -/

structure Vertex where
  position : Vector3
  color : Color
  uv : Vector2
deriving DecidableEq

structure Mesh where
  vertices : List Vertex
deriving DecidableEq

/-! Per-face vertex templates (src/voxel.rs lines 50-130). -/

/-- Face::get_vertex_positions: six local vertex offsets (two triangles). -/
def Face.get_vertex_positions : Face → List Vector3
  | .PosX =>
    [⟨0.5, -0.5, 0.5⟩, ⟨0.5, 0.5, 0.5⟩, ⟨0.5, -0.5, -0.5⟩,
     ⟨0.5, 0.5, 0.5⟩, ⟨0.5, 0.5, -0.5⟩, ⟨0.5, -0.5, -0.5⟩]
  | .NegX =>
    [⟨-0.5, -0.5, -0.5⟩, ⟨-0.5, 0.5, -0.5⟩, ⟨-0.5, -0.5, 0.5⟩,
     ⟨-0.5, 0.5, -0.5⟩, ⟨-0.5, 0.5, 0.5⟩, ⟨-0.5, -0.5, 0.5⟩]
  | .PosY =>
    [⟨-0.5, 0.5, 0.5⟩, ⟨-0.5, 0.5, -0.5⟩, ⟨0.5, 0.5, 0.5⟩,
     ⟨-0.5, 0.5, -0.5⟩, ⟨0.5, 0.5, -0.5⟩, ⟨0.5, 0.5, 0.5⟩]
  | .NegY =>
    [⟨-0.5, -0.5, -0.5⟩, ⟨-0.5, -0.5, 0.5⟩, ⟨0.5, -0.5, -0.5⟩,
     ⟨-0.5, -0.5, 0.5⟩, ⟨0.5, -0.5, 0.5⟩, ⟨0.5, -0.5, -0.5⟩]
  | .PosZ =>
    [⟨-0.5, -0.5, 0.5⟩, ⟨-0.5, 0.5, 0.5⟩, ⟨0.5, -0.5, 0.5⟩,
     ⟨-0.5, 0.5, 0.5⟩, ⟨0.5, 0.5, 0.5⟩, ⟨0.5, -0.5, 0.5⟩]
  | .NegZ =>
    [⟨0.5, -0.5, -0.5⟩, ⟨0.5, 0.5, -0.5⟩, ⟨-0.5, -0.5, -0.5⟩,
     ⟨0.5, 0.5, -0.5⟩, ⟨-0.5, 0.5, -0.5⟩, ⟨-0.5, -0.5, -0.5⟩]

/-- Face::get_vertex_uvs: six template UVs per face. -/
def Face.get_vertex_uvs : Face → List Vector2
  | .PosX | .NegX | .PosZ | .NegZ =>
    [⟨0, 0.667⟩, ⟨0, 0.333⟩, ⟨1, 0.667⟩, ⟨0, 0.333⟩, ⟨1, 0.333⟩, ⟨1, 0.667⟩]
  | .PosY =>
    [⟨0, 0.333⟩, ⟨0, 0⟩, ⟨1, 0.333⟩, ⟨0, 0⟩, ⟨1, 0⟩, ⟨1, 0.333⟩]
  | .NegY =>
    [⟨0, 1⟩, ⟨0, 0.667⟩, ⟨1, 1⟩, ⟨0, 0.667⟩, ⟨1, 0.667⟩, ⟨1, 1⟩]

/-! The World aggregate (src/voxel.rs lines 184-459). -/

inductive TextureLayout where
  | Single
deriving DecidableEq

/-- graphics::Error (src/graphics.rs lines 43-50), restricted to the
constructor reachable from World::new; the wgpu-request variants carry
live GPU handles and are unreachable in the modelled paths. -/
inductive GraphicsError where
  | Texture (error : TextureError)
deriving DecidableEq

inductive WorldError where
  | PositionInvalid (position : Offset3)
  | TileIndexInvalid (tile_index : Nat)
  | DataInvalid
  | Texture (error : TextureError)
  | Graphics (error : GraphicsError)
deriving DecidableEq

structure World where
  size : Extent3
  origin_offset : Offset3
  voxel_data : List VoxelData
  max_tiles : Nat
  mesh : Mesh
  texture : Texture
deriving DecidableEq

namespace World

def TEXTURE_SIZE : Extent2 := ⟨8, 24⟩

/-- World::new (src/voxel.rs lines 214-255). half_size uses i64 division
of u32 values (Nat division); the voxel_data length and the atlas width
are u32 products, reduced modulo 2^32 (release wrapping). The graphics
context only supplies GPU handles, which carry no specification data. A
texture-creation failure propagates as texture::Error, wrapped into
graphics::Error::Texture by create_texture and then into
WorldError::Graphics by the question-mark conversion. -/
def new (size : Extent3) (max_tiles : Nat) : Except WorldError World :=
  let origin_offset : Offset3 :=
    ⟨-((size.width / 2 : Nat) : Int),
     -((size.height / 2 : Nat) : Int),
     -((size.depth / 2 : Nat) : Int)⟩
  let voxel_data : List VoxelData :=
    List.replicate ((size.width * size.height * size.depth) % U32_MOD)
      VoxelData.default
  let mesh : Mesh := ⟨[]⟩
  let texture_size : TextureSize :=
    .D2 ⟨(TEXTURE_SIZE.width * max_tiles) % U32_MOD, TEXTURE_SIZE.height⟩
  match Texture.new texture_size .Rgba8Unorm
      (some ⟨.Nearest, .ClampToEdge⟩) none with
  | .error error => .error (.Graphics (.Texture error))
  | .ok texture =>
    .ok ⟨size, origin_offset, voxel_data, max_tiles, mesh, texture⟩

/-- World::get_voxel_index_unchecked (src/voxel.rs lines 421-435). Each
coordinate difference is a wrapping i32 subtraction (`wrap32`) whose
result is then cast `as usize`, i.e. sign-extended to 64 bits
(`toUsize` of the wrapped value: nonnegative values are kept, negative
values land at 2^64 + value). The polynomial is usize arithmetic,
reduced once modulo 2^64 (reduction modulo 2^64 is a ring homomorphism,
so one final reduction agrees with Rust's per-operation wrapping). -/
def get_voxel_index_unchecked (w : World) (position : Offset3) : Nat :=
  let width := w.size.width
  let height := w.size.height
  let x := toUsize (wrap32 (position.x - w.origin_offset.x))
  let y := toUsize (wrap32 (position.y - w.origin_offset.y))
  let z := toUsize (wrap32 (position.z - w.origin_offset.z))
  (z * width * height + y * width + x) % U64_MOD

/-- World::get_voxel_index (src/voxel.rs lines 399-410): each coordinate
difference is wrapped into u32 and compared against the size. -/
def get_voxel_index (w : World) (position : Offset3) : Option Nat :=
  let px := toU32 (position.x - w.origin_offset.x)
  let py := toU32 (position.y - w.origin_offset.y)
  let pz := toU32 (position.z - w.origin_offset.z)
  if w.size.width ≤ px ∨ w.size.height ≤ py ∨ w.size.depth ≤ pz then none
  else some (w.get_voxel_index_unchecked position)

/-- World::get_voxel_position_unchecked (src/voxel.rs lines 437-453):
index and sizes as i64 (callers pass an index below the u32-sized
voxel-data length, so the usize → i64 cast is lossless); the divisions
and remainders act on nonnegative values, where Rust truncating and
Euclidean division agree; the final differences are narrowed `as i32`. -/
def get_voxel_position_unchecked (w : World) (index : Nat) : Offset3 :=
  let index : Int := (index : Int)
  let width : Int := (w.size.width : Int)
  let height : Int := (w.size.height : Int)
  let depth : Int := (w.size.depth : Int)
  let origin_x := width / 2
  let origin_y := height / 2
  let origin_z := depth / 2
  let x := index % width
  let y := (index / width) % height
  let z := index / (width * height)
  ⟨wrap32 (x - origin_x), wrap32 (y - origin_y), wrap32 (z - origin_z)⟩

/-- World::get_voxel_position (src/voxel.rs lines 412-419). -/
def get_voxel_position (w : World) (index : Nat) : Option Offset3 :=
  if w.voxel_data.length ≤ index then none
  else some (w.get_voxel_position_unchecked index)

/-- World::get_voxel_data (src/voxel.rs lines 455-458): Vec::get. -/
def get_voxel_data (w : World) (position : Offset3) : Option VoxelData :=
  w.get_voxel_index position >>= fun index => w.voxel_data.get? index

/-- World::get_voxel (src/voxel.rs lines 269-272). -/
def get_voxel (w : World) (position : Offset3) : Option Voxel :=
  (w.get_voxel_data position).map (fun voxel_data => voxel_data.voxel)

/-- In-place update of the faces of the cell at an index, mirroring
`self.voxel_data[i].faces.insert/remove(..)`. The source's indexing
panics out of range; here List.set drops such a write and List.getD
reads the default record, a divergence that is reachable (a checked
index of a well-formed world can exceed the store length when a
dimension exceeds 2^31) and that the smallDims hypothesis of the
affected claims excludes. -/
def modify_faces (l : List VoxelData) (i : Nat) (g : Faces → Faces) :
    List VoxelData :=
  l.set i { l.getD i VoxelData.default with
            faces := g (l.getD i VoxelData.default).faces }

/-- One iteration of the face-update loop in World::set_voxel
(src/voxel.rs lines 292-328). The neighbor position is computed with
wrapping i32 additions. -/
def set_voxel_step (position : Offset3) (voxel : Voxel) (target_index : Nat)
    (w : World) (face_index : Nat) : World :=
  let face := Face.from_index face_index
  let adjacent := face.get_adjacent_voxel_position
  let other_position : Offset3 :=
    ⟨wrap32 (position.x + adjacent.x),
     wrap32 (position.y + adjacent.y),
     wrap32 (position.z + adjacent.z)⟩
  match w.get_voxel_index other_position with
  | none =>
    { w with voxel_data :=
        modify_faces w.voxel_data target_index (fun s => s.insert face) }
  | some other_index =>
    let target_voxel := voxel
    let other_voxel := (w.voxel_data.getD other_index VoxelData.default).voxel
    match target_voxel, other_voxel with
    | .Void, .Void => w
    | .Void, .Tile _ =>
      { w with voxel_data :=
          (modify_faces w.voxel_data other_index
            (fun s => s.insert face.opposite)) }
    | .Tile _, .Void =>
      { w with voxel_data :=
          modify_faces w.voxel_data target_index (fun s => s.insert face) }
    | .Tile _, .Tile _ =>
      { w with voxel_data :=
          (modify_faces w.voxel_data other_index
            (fun s => s.remove face.opposite)) }

/-- The body of World::set_voxel after both validity checks: store the
new voxel, run the face-update loop over the six faces, and return the
old voxel. The source reads and writes self.voxel_data[target_index]
with panicking indexing; the totalized store access here (getD /
dropped List.set) diverges from the panic exactly when target_index is
out of range, which the smallDims hypothesis of the claims about store
contents excludes. -/
def set_voxel_go (w : World) (position : Offset3) (voxel : Voxel)
    (target_index : Nat) : Except WorldError Voxel × World :=
  let old_voxel := (w.voxel_data.getD target_index VoxelData.default).voxel
  let w1 : World :=
    { w with voxel_data :=
        (w.voxel_data.set target_index
          { w.voxel_data.getD target_index VoxelData.default with
            voxel := voxel }) }
  let w2 := (List.range Face.MAX_COUNT).foldl
    (set_voxel_step position voxel target_index) w1
  (.ok old_voxel, w2)

/-- World::set_voxel (src/voxel.rs lines 274-331). Returned alongside
the result is the world state after the call (unchanged on error). -/
def set_voxel (w : World) (position : Offset3) (voxel : Voxel) :
    Except WorldError Voxel × World :=
  match w.get_voxel_index position with
  | none => (.error (.PositionInvalid position), w)
  | some target_index =>
    match voxel with
    | .Tile tile_index =>
      if w.max_tiles ≤ tile_index then
        (.error (.TileIndexInvalid tile_index), w)
      else w.set_voxel_go position voxel target_index
    | .Void => w.set_voxel_go position voxel target_index

/-- World::set_voxel_texture (src/voxel.rs lines 333-355). On success
the validated write call handed to the texture is returned (the Rust
function returns unit; the call is its observable effect). The origin
multiplication is u32 and wraps modulo 2^32. -/
def set_voxel_texture (w : World) (tile_index : Nat)
    (layout : TextureLayout) (pixels : List Nat) :
    Except WorldError WriteCall :=
  if w.max_tiles ≤ tile_index then .error (.TileIndexInvalid tile_index)
  else
    let required_size :=
      match layout with
      | .Single => 4 * TEXTURE_SIZE.width * TEXTURE_SIZE.height
    if pixels.length < required_size then .error .DataInvalid
    else
      let origin : UOffset3 := ⟨(TEXTURE_SIZE.width * tile_index) % U32_MOD, 0, 0⟩
      let size : Extent3 := ⟨TEXTURE_SIZE.width, TEXTURE_SIZE.height, 1⟩
      match w.texture.write origin size pixels with
      | .error error => .error (.Texture error)
      | .ok call => .ok call

/-- The WorldIterator loop (src/voxel.rs lines 461-481), which walks
indices from a start value until get_voxel_position or get_voxel_data
fails. The fuel argument bounds the recursion; get_voxel_position fails
at every index at or beyond voxel_data.length, so a fuel of
voxel_data.length - start makes the recursion stop exactly where the
Rust iterator does. -/
def iterCellsAux (w : World) : Nat → Nat → List (Offset3 × VoxelData)
  | _, 0 => []
  | i, fuel + 1 =>
    match w.get_voxel_position i with
    | none => []
    | some position =>
      match w.get_voxel_data position with
      | none => []
      | some voxel_data => (position, voxel_data) :: w.iterCellsAux (i + 1) fuel

/-- World::iter: all cells in storage order with their positions. -/
def iterCells (w : World) : List (Offset3 × VoxelData) :=
  w.iterCellsAux 0 w.voxel_data.length

/-- The six vertices emitted for one exposed face inside generate_mesh:
template positions zipped with template UVs, translated by the cell's
world position, white, with the U coordinate remapped into the atlas
column of the tile. -/
def emit_face_vertices (w : World) (tile_index : Nat)
    (world_position : Vector3) (face : Face) : List Vertex :=
  (face.get_vertex_positions.zip face.get_vertex_uvs).map (fun pu =>
    { position := pu.1.add world_position
      color := Color.white
      uv := ⟨((tile_index : ℚ) + pu.2.x) / (w.max_tiles : ℚ), pu.2.y⟩ })

/-- The body of the per-cell loop of generate_mesh: a Void cell emits
nothing; an occupied cell appends six vertices for each face flag that
is set, in face order. -/
def emit_cell (w : World) (staging : List Vertex)
    (cell : Offset3 × VoxelData) : List Vertex :=
  match cell.2.voxel with
  | .Void => staging
  | .Tile tile_index =>
    let world_position : Vector3 :=
      ⟨(cell.1.x : ℚ), (cell.1.y : ℚ), (cell.1.z : ℚ)⟩
    (List.range Face.MAX_COUNT).foldl (fun staging face_index =>
      let face := Face.from_index face_index
      if cell.2.faces.contains face = false then staging
      else staging ++ w.emit_face_vertices tile_index world_position face)
      staging

/-- World::generate_mesh (src/voxel.rs lines 357-392): clear the vertex
list, walk every cell, emit six vertices for every exposed face of every
occupied cell, then bulk-write the staging list into the mesh. clear()
followed by extend_from_slice(&staging) leaves exactly staging. -/
def generate_mesh (w : World) : World :=
  let staging : List Vertex := w.iterCells.foldl w.emit_cell []
  { w with mesh := ⟨staging⟩ }

end World

instance {ε α : Type} [DecidableEq ε] [DecidableEq α] :
    DecidableEq (Except ε α) := fun a b =>
  match a, b with
  | .ok a, .ok b =>
    if h : a = b then isTrue (by rw [h])
    else isFalse (fun c => h (Except.ok.inj c))
  | .error a, .error b =>
    if h : a = b then isTrue (by rw [h])
    else isFalse (fun c => h (Except.error.inj c))
  | .ok _, .error _ => isFalse (fun c => Except.noConfusion c)
  | .error _, .ok _ => isFalse (fun c => Except.noConfusion c)

/-! Specification-side vocabulary. -/

namespace World

/-- A position is in bounds when every coordinate lies in
[origin_offset, origin_offset + size) on its axis (spec section 8). -/
def inBounds (w : World) (p : Offset3) : Prop :=
  (w.origin_offset.x ≤ p.x ∧ p.x < w.origin_offset.x + (w.size.width : Int)) ∧
  (w.origin_offset.y ≤ p.y ∧ p.y < w.origin_offset.y + (w.size.height : Int)) ∧
  (w.origin_offset.z ≤ p.z ∧ p.z < w.origin_offset.z + (w.size.depth : Int))

instance (w : World) (p : Offset3) : Decidable (w.inBounds p) := by
  unfold inBounds; infer_instance

/-- Well-formedness established by World::new and preserved by every
operation: u32-sized dimensions, a u32-sized volume (the constructor
allocates the store from the u32 product width*height*depth), the
centering origin derived from the size, and a store of exactly one entry
per cell. -/
def WF (w : World) : Prop :=
  w.size.width < U32_MOD ∧ w.size.height < U32_MOD ∧ w.size.depth < U32_MOD ∧
  w.size.width * w.size.height * w.size.depth < U32_MOD ∧
  w.origin_offset.x = -((w.size.width / 2 : Nat) : Int) ∧
  w.origin_offset.y = -((w.size.height / 2 : Nat) : Int) ∧
  w.origin_offset.z = -((w.size.depth / 2 : Nat) : Int) ∧
  w.voxel_data.length = w.size.width * w.size.height * w.size.depth

instance (w : World) : Decidable (w.WF) := by
  unfold WF; infer_instance

/-- Every dimension fits the nonnegative half of the i32 range. Under
this restriction the zero-based coordinate differences of in-bounds
positions stay below 2^31, so the wrapping i32 subtraction followed by
the `as usize` sign extension inside get_voxel_index_unchecked is
value-preserving. A well-formed world can violate it on one axis (for
example size (2^32 - 1, 1, 1)), and there the computed index of a valid
position can land near the top of the 64-bit range instead of at the
mathematical flat index. -/
def smallDims (w : World) : Prop :=
  w.size.width ≤ 2147483648 ∧ w.size.height ≤ 2147483648 ∧
  w.size.depth ≤ 2147483648

instance (w : World) : Decidable (w.smallDims) := by
  unfold smallDims; infer_instance

/-- The mathematical flat index of an in-bounds position. -/
def idxOf (w : World) (p : Offset3) : Nat :=
  (p.z - w.origin_offset.z).toNat * (w.size.width * w.size.height) +
  (p.y - w.origin_offset.y).toNat * w.size.width +
  (p.x - w.origin_offset.x).toNat

/-- The exact (non-wrapping) neighbor of a position in a direction. -/
def neighbor (p : Offset3) (f : Face) : Offset3 :=
  ⟨p.x + f.get_adjacent_voxel_position.x,
   p.y + f.get_adjacent_voxel_position.y,
   p.z + f.get_adjacent_voxel_position.z⟩

/-- The wrapped neighbor position actually computed inside set_voxel. -/
def wrapNeighbor (p : Offset3) (f : Face) : Offset3 :=
  ⟨wrap32 (p.x + f.get_adjacent_voxel_position.x),
   wrap32 (p.y + f.get_adjacent_voxel_position.y),
   wrap32 (p.z + f.get_adjacent_voxel_position.z)⟩

/-- The list of all six faces in loop order. -/
def allFaces : List Face := [.PosX, .NegX, .PosY, .NegY, .PosZ, .NegZ]

/-- Number of set face flags. -/
def facesCount (s : Faces) : Nat :=
  (cond s.pos_x 1 0) + (cond s.neg_x 1 0) + (cond s.pos_y 1 0) +
  (cond s.neg_y 1 0) + (cond s.pos_z 1 0) + (cond s.neg_z 1 0)

/-- Vertices contributed by one cell: six per set face flag of an
occupied cell, none for Void. -/
def cellFaceCount (d : VoxelData) : Nat :=
  match d.voxel with
  | .Void => 0
  | .Tile _ => facesCount d.faces

/-- Reading one face flag of the cell at a flat index. -/
def flagAt (w : World) (i : Nat) (f : Face) : Bool :=
  (w.voxel_data.getD i VoxelData.default).faces.contains f

/-- Reading the voxel of the cell at a flat index. -/
def voxelAt (w : World) (i : Nat) : Voxel :=
  (w.voxel_data.getD i VoxelData.default).voxel

end World

/-! List helper lemmas. -/

theorem getD_set_self {l : List Ndrcraft.VoxelData} {i : Nat}
    {a d : Ndrcraft.VoxelData} (h : i < l.length) :
    (l.set i a).getD i d = a := by
  simp [List.getD_eq_getElem?_getD, List.getElem?_set, h]

theorem getD_set_ne {l : List Ndrcraft.VoxelData} {i j : Nat}
    {a d : Ndrcraft.VoxelData} (h : i ≠ j) :
    (l.set i a).getD j d = l.getD j d := by
  simp [List.getD_eq_getElem?_getD, List.getElem?_set, h]

theorem set_getD_self {l : List Ndrcraft.VoxelData} {i : Nat}
    {d : Ndrcraft.VoxelData} (h : i < l.length) :
    l.set i (l.getD i d) = l := by
  apply List.ext_getElem
  · simp
  · intro n h1 h2
    simp only [List.getElem_set]
    split
    · next heq =>
      subst heq
      simp [List.getD_eq_getElem?_getD, List.getElem?_eq_getElem h2]
    · rfl

theorem get?_eq_some_getD {l : List Ndrcraft.VoxelData} {i : Nat}
    {d : Ndrcraft.VoxelData} (h : i < l.length) :
    l.get? i = some (l.getD i d) := by
  simp [List.getD_eq_getElem?_getD, List.get?_eq_getElem?,
    List.getElem?_eq_getElem h]

/-! Arithmetic lemmas about the wrapping helpers. -/

theorem wrap32_eq_self {z : Int} (h1 : I32_MIN ≤ z) (h2 : z ≤ I32_MAX) :
    wrap32 z = z := by
  unfold wrap32 U32_MOD I32_MIN I32_MAX at *
  omega

theorem wrap32_isI32 (z : Int) : isI32 (wrap32 z) := by
  unfold wrap32 isI32 U32_MOD I32_MIN I32_MAX
  constructor <;> omega

theorem toU32_wrap32_sub (a b : Int) :
    toU32 (wrap32 a - b) = toU32 (a - b) := by
  unfold toU32 wrap32 U32_MOD
  omega

/-- Per-axis characterisation of the u32 bounds check performed by
get_voxel_index, for positions whose coordinate is at most one step
outside the i32 range and a constructor-derived origin. -/
theorem axis_check {sz : Nat} {o p : Int} (hsz : sz < U32_MOD)
    (ho : o = -((sz / 2 : Nat) : Int))
    (hlo : -(2147483648 : Int) ≤ p) (hhi : p ≤ 2147483648) :
    (toU32 (p - o) < sz ↔ (o ≤ p ∧ p < o + sz)) ∧
    (o ≤ p ∧ p < o + sz → toU32 (p - o) = (p - o).toNat) := by
  subst ho
  unfold toU32 U32_MOD at *
  omega

/-- An Int within one step of the i32 range (neighbor coordinates of an
i32 position stay in this set). -/
def nearI32 (z : Int) : Prop :=
  -(2147483648 : Int) ≤ z ∧ z ≤ 2147483648

instance (z : Int) : Decidable (nearI32 z) := by
  unfold nearI32; infer_instance

theorem isI32_nearI32 {z : Int} (h : isI32 z) : nearI32 z := by
  unfold isI32 I32_MIN I32_MAX at h
  unfold nearI32
  omega

theorem toUsize_eq_toNat {d : Int} (h0 : 0 ≤ d) (h1 : d < (U64_MOD : Nat)) :
    toUsize d = d.toNat := by
  unfold toUsize U64_MOD at *
  omega

/-- The wrapping i32 subtraction followed by `as usize` is
value-preserving on differences below 2^31. -/
theorem toUsize_wrap32_small {d : Int} (h0 : 0 ≤ d)
    (h1 : d < 2147483648) : toUsize (wrap32 d) = d.toNat := by
  unfold toUsize wrap32 U64_MOD U32_MOD
  omega

/-- A difference in [2^31, 2^32) wraps to a negative i32, so the
`as usize` sign extension sends it to the top of the 64-bit range. -/
theorem toUsize_wrap32_large {d : Int} (h0 : 2147483648 ≤ d)
    (h1 : d < 4294967296) :
    toUsize (wrap32 d) = 18446744069414584320 + d.toNat := by
  unfold toUsize wrap32 U64_MOD U32_MOD
  omega

theorem index_poly_lt {W H D x y z : Nat} (hx : x < W) (hy : y < H)
    (hz : z < D) : z * (W * H) + y * W + x < W * H * D := by
  calc z * (W * H) + y * W + x < z * (W * H) + y * W + W := by omega
    _ = z * (W * H) + (y + 1) * W := by ring
    _ ≤ z * (W * H) + H * W := Nat.add_le_add_left (Nat.mul_le_mul_right W hy) _
    _ = (z + 1) * (W * H) := by ring
    _ ≤ D * (W * H) := Nat.mul_le_mul_right _ hz
    _ = W * H * D := by ring

theorem inBounds_isI32 {w : World} {p : Offset3} (hWF : w.WF)
    (h : w.inBounds p) :
    isI32 p.x ∧ isI32 p.y ∧ isI32 p.z := by
  obtain ⟨h1, h2, h3, h4, h5, h6, h7, h8⟩ := hWF
  obtain ⟨hx, hy, hz⟩ := h
  unfold isI32 I32_MIN I32_MAX
  unfold U32_MOD at h1 h2 h3
  rw [h5] at hx
  rw [h6] at hy
  rw [h7] at hz
  refine ⟨⟨?_, ?_⟩, ⟨?_, ?_⟩, ⟨?_, ?_⟩⟩ <;> omega

namespace World

/-- The mathematical flat index of an in-bounds position is a valid
store index (no restriction on the dimensions is needed). -/
theorem idxOf_lt_length {w : World} {p : Offset3} (hWF : w.WF)
    (hin : w.inBounds p) : w.idxOf p < w.voxel_data.length := by
  obtain ⟨h1, h2, h3, h4, h5, h6, h7, h8⟩ := hWF
  obtain ⟨⟨hx1, hx2⟩, ⟨hy1, hy2⟩, ⟨hz1, hz2⟩⟩ := hin
  have dxlt : (p.x - w.origin_offset.x).toNat < w.size.width := by omega
  have dylt : (p.y - w.origin_offset.y).toNat < w.size.height := by omega
  have dzlt : (p.z - w.origin_offset.z).toNat < w.size.depth := by omega
  have := index_poly_lt dxlt dylt dzlt
  rw [h8]
  unfold idxOf
  omega

/-- The bounds check of get_voxel_index passes at every in-bounds
position, regardless of the dimensions: the returned value is the
unchecked computation. -/
theorem get_voxel_index_of_inBounds {w : World} {p : Offset3} (hWF : w.WF)
    (hx : nearI32 p.x) (hy : nearI32 p.y) (hz : nearI32 p.z)
    (hin : w.inBounds p) :
    w.get_voxel_index p = some (w.get_voxel_index_unchecked p) := by
  obtain ⟨h1, h2, h3, h4, h5, h6, h7, h8⟩ := hWF
  obtain ⟨⟨hx1, hx2⟩, ⟨hy1, hy2⟩, ⟨hz1, hz2⟩⟩ := hin
  have ax := axis_check h1 h5 hx.1 hx.2
  have ay := axis_check h2 h6 hy.1 hy.2
  have az := axis_check h3 h7 hz.1 hz.2
  have cx : toU32 (p.x - w.origin_offset.x) < w.size.width :=
    ax.1.mpr ⟨hx1, hx2⟩
  have cy : toU32 (p.y - w.origin_offset.y) < w.size.height :=
    ay.1.mpr ⟨hy1, hy2⟩
  have cz : toU32 (p.z - w.origin_offset.z) < w.size.depth :=
    az.1.mpr ⟨hz1, hz2⟩
  simp only [get_voxel_index]
  rw [if_neg (by omega)]

/-- Conversely, a position whose bounds check passes is in bounds. -/
theorem inBounds_of_get_voxel_index {w : World} {p : Offset3} {t : Nat}
    (hWF : w.WF) (hx : nearI32 p.x) (hy : nearI32 p.y) (hz : nearI32 p.z)
    (h : w.get_voxel_index p = some t) : w.inBounds p := by
  obtain ⟨h1, h2, h3, h4, h5, h6, h7, h8⟩ := hWF
  have ax := axis_check h1 h5 hx.1 hx.2
  have ay := axis_check h2 h6 hy.1 hy.2
  have az := axis_check h3 h7 hz.1 hz.2
  simp only [get_voxel_index] at h
  by_cases hc : w.size.width ≤ toU32 (p.x - w.origin_offset.x) ∨
      w.size.height ≤ toU32 (p.y - w.origin_offset.y) ∨
      w.size.depth ≤ toU32 (p.z - w.origin_offset.z)
  · rw [if_pos hc] at h
    cases h
  · push_neg at hc
    obtain ⟨c1, c2, c3⟩ := hc
    exact ⟨ax.1.mp c1, ay.1.mp c2, az.1.mp c3⟩

/-- Under WF and at most half-range dimensions, the checked index of an
in-bounds position is its mathematical flat index, in range. -/
theorem get_voxel_index_some {w : World} {p : Offset3} (hWF : w.WF)
    (hsd : w.smallDims) (hx : nearI32 p.x) (hy : nearI32 p.y)
    (hz : nearI32 p.z) (hin : w.inBounds p) :
    w.get_voxel_index p = some (w.idxOf p) ∧
    w.idxOf p < w.voxel_data.length := by
  have hof := get_voxel_index_of_inBounds hWF hx hy hz hin
  have hlt := idxOf_lt_length hWF hin
  obtain ⟨hsw, hsh, hsz⟩ := hsd
  obtain ⟨h1, h2, h3, h4, h5, h6, h7, h8⟩ := hWF
  obtain ⟨⟨hx1, hx2⟩, ⟨hy1, hy2⟩, ⟨hz1, hz2⟩⟩ := hin
  have dxlt : (p.x - w.origin_offset.x).toNat < w.size.width := by omega
  have dylt : (p.y - w.origin_offset.y).toNat < w.size.height := by omega
  have dzlt : (p.z - w.origin_offset.z).toNat < w.size.depth := by omega
  have hidx : w.idxOf p <
      w.size.width * w.size.height * w.size.depth := by
    have := index_poly_lt dxlt dylt dzlt
    unfold idxOf
    omega
  refine ⟨?_, hlt⟩
  rw [hof]
  congr 1
  simp only [get_voxel_index_unchecked]
  rw [toUsize_wrap32_small (by omega) (by omega),
      toUsize_wrap32_small (by omega) (by omega),
      toUsize_wrap32_small (by omega) (by omega)]
  have hassoc : (p.z - w.origin_offset.z).toNat * w.size.width *
      w.size.height + (p.y - w.origin_offset.y).toNat * w.size.width +
      (p.x - w.origin_offset.x).toNat = w.idxOf p := by
    unfold idxOf; ring
  rw [hassoc]
  exact Nat.mod_eq_of_lt (by unfold U64_MOD U32_MOD at *; omega)

theorem get_voxel_index_none {w : World} {p : Offset3} (hWF : w.WF)
    (hx : nearI32 p.x) (hy : nearI32 p.y) (hz : nearI32 p.z)
    (hout : ¬ w.inBounds p) :
    w.get_voxel_index p = none := by
  obtain ⟨h1, h2, h3, h4, h5, h6, h7, h8⟩ := hWF
  have ax := axis_check h1 h5 hx.1 hx.2
  have ay := axis_check h2 h6 hy.1 hy.2
  have az := axis_check h3 h7 hz.1 hz.2
  simp only [get_voxel_index]
  rw [if_pos]
  by_contra hc
  push_neg at hc
  obtain ⟨c1, c2, c3⟩ := hc
  exact hout ⟨ax.1.mp (by omega), ay.1.mp (by omega), az.1.mp (by omega)⟩

theorem get_voxel_index_some_inv {w : World} {p : Offset3} {i : Nat}
    (hWF : w.WF) (hsd : w.smallDims) (hx : nearI32 p.x) (hy : nearI32 p.y)
    (hz : nearI32 p.z) (h : w.get_voxel_index p = some i) :
    w.inBounds p ∧ i = w.idxOf p ∧ i < w.voxel_data.length := by
  by_cases hin : w.inBounds p
  · have hs := get_voxel_index_some hWF hsd hx hy hz hin
    rw [hs.1] at h
    have := Option.some.inj h
    exact ⟨hin, this.symm, this ▸ hs.2⟩
  · rw [get_voxel_index_none hWF hx hy hz hin] at h
    cases h

/-- Without any restriction on the dimensions, the unchecked index of an
in-bounds position either is the mathematical flat index (in range) or
lies at or beyond the store length. At most one dimension of a
well-formed world can exceed 2^31 (the u32 volume bounds the product),
and a coordinate difference at or above 2^31 on that axis forces the
other two differences to zero, sending the index polynomial to the top
of the 64-bit range. -/
theorem get_voxel_index_unchecked_cases {w : World} {p : Offset3}
    (hWF : w.WF) (hin : w.inBounds p) :
    (w.get_voxel_index_unchecked p = w.idxOf p ∧
      w.idxOf p < w.voxel_data.length) ∨
    w.voxel_data.length ≤ w.get_voxel_index_unchecked p := by
  have hlt := idxOf_lt_length hWF hin
  obtain ⟨h1, h2, h3, h4, h5, h6, h7, h8⟩ := hWF
  obtain ⟨⟨hx1, hx2⟩, ⟨hy1, hy2⟩, ⟨hz1, hz2⟩⟩ := hin
  unfold U32_MOD at h1 h2 h3 h4
  have hWpos : 0 < w.size.width := by omega
  have hHpos : 0 < w.size.height := by omega
  have hDpos : 0 < w.size.depth := by omega
  by_cases hbx : p.x - w.origin_offset.x < 2147483648
  · by_cases hby : p.y - w.origin_offset.y < 2147483648
    · by_cases hbz : p.z - w.origin_offset.z < 2147483648
      · -- every difference is small: the cast is value-preserving
        left
        refine ⟨?_, hlt⟩
        have dxlt : (p.x - w.origin_offset.x).toNat < w.size.width := by
          omega
        have dylt : (p.y - w.origin_offset.y).toNat < w.size.height := by
          omega
        have dzlt : (p.z - w.origin_offset.z).toNat < w.size.depth := by
          omega
        have hidx : w.idxOf p <
            w.size.width * w.size.height * w.size.depth := by
          have := index_poly_lt dxlt dylt dzlt
          unfold idxOf
          omega
        simp only [get_voxel_index_unchecked]
        rw [toUsize_wrap32_small (by omega) (by omega),
            toUsize_wrap32_small (by omega) (by omega),
            toUsize_wrap32_small (by omega) (by omega)]
        have hassoc : (p.z - w.origin_offset.z).toNat * w.size.width *
            w.size.height + (p.y - w.origin_offset.y).toNat * w.size.width +
            (p.x - w.origin_offset.x).toNat = w.idxOf p := by
          unfold idxOf; ring
        rw [hassoc]
        exact Nat.mod_eq_of_lt (by unfold U64_MOD; omega)
      · -- the z difference is large, so width = height = 1
        right
        have hD31 : 2147483649 ≤ w.size.depth := by omega
        have hWH : w.size.width * w.size.height = 1 := by
          have hpos : 0 < w.size.width * w.size.height :=
            Nat.mul_pos hWpos hHpos
          by_contra hc
          have h2le : 2 ≤ w.size.width * w.size.height := by omega
          have hmul : 2 * w.size.depth ≤
              w.size.width * w.size.height * w.size.depth :=
            Nat.mul_le_mul_right w.size.depth h2le
          omega
        have hWle : w.size.width * 1 ≤ w.size.width * w.size.height :=
          Nat.mul_le_mul_left w.size.width hHpos
        have hW1 : w.size.width = 1 := by omega
        have hHle : 1 * w.size.height ≤ w.size.width * w.size.height :=
          Nat.mul_le_mul_right w.size.height hWpos
        have hH1 : w.size.height = 1 := by omega
        have hx0 : toUsize (wrap32 (p.x - w.origin_offset.x)) = 0 := by
          have h0 : p.x - w.origin_offset.x = 0 := by omega
          rw [h0]
          rfl
        have hy0 : toUsize (wrap32 (p.y - w.origin_offset.y)) = 0 := by
          have h0 : p.y - w.origin_offset.y = 0 := by omega
          rw [h0]
          rfl
        have hzbig : toUsize (wrap32 (p.z - w.origin_offset.z)) =
            18446744069414584320 + (p.z - w.origin_offset.z).toNat :=
          toUsize_wrap32_large (by omega) (by omega)
        simp only [get_voxel_index_unchecked]
        rw [h8, hzbig, hy0, hx0, hW1, hH1]
        unfold U64_MOD
        omega
    · -- the y difference is large, so width = depth = 1
      right
      have hH31 : 2147483649 ≤ w.size.height := by omega
      have hre : w.size.height * (w.size.width * w.size.depth) =
          w.size.width * w.size.height * w.size.depth := by ring
      have hWD : w.size.width * w.size.depth = 1 := by
        have hpos : 0 < w.size.width * w.size.depth :=
          Nat.mul_pos hWpos hDpos
        by_contra hc
        have h2le : 2 ≤ w.size.width * w.size.depth := by omega
        have hmul : w.size.height * 2 ≤
            w.size.height * (w.size.width * w.size.depth) :=
          Nat.mul_le_mul_left w.size.height h2le
        rw [hre] at hmul
        omega
      have hWle : w.size.width * 1 ≤ w.size.width * w.size.depth :=
        Nat.mul_le_mul_left w.size.width hDpos
      have hW1 : w.size.width = 1 := by omega
      have hDle : 1 * w.size.depth ≤ w.size.width * w.size.depth :=
        Nat.mul_le_mul_right w.size.depth hWpos
      have hD1 : w.size.depth = 1 := by omega
      have hx0 : toUsize (wrap32 (p.x - w.origin_offset.x)) = 0 := by
        have h0 : p.x - w.origin_offset.x = 0 := by omega
        rw [h0]
        rfl
      have hz0 : toUsize (wrap32 (p.z - w.origin_offset.z)) = 0 := by
        have h0 : p.z - w.origin_offset.z = 0 := by omega
        rw [h0]
        rfl
      have hybig : toUsize (wrap32 (p.y - w.origin_offset.y)) =
          18446744069414584320 + (p.y - w.origin_offset.y).toNat :=
        toUsize_wrap32_large (by omega) (by omega)
      simp only [get_voxel_index_unchecked]
      rw [h8, hybig, hz0, hx0, hW1, hD1]
      unfold U64_MOD
      omega
  · -- the x difference is large, so height = depth = 1
    right
    have hW31 : 2147483649 ≤ w.size.width := by omega
    have hre : w.size.width * (w.size.height * w.size.depth) =
        w.size.width * w.size.height * w.size.depth := by ring
    have hHD : w.size.height * w.size.depth = 1 := by
      have hpos : 0 < w.size.height * w.size.depth :=
        Nat.mul_pos hHpos hDpos
      by_contra hc
      have h2le : 2 ≤ w.size.height * w.size.depth := by omega
      have hmul : w.size.width * 2 ≤
          w.size.width * (w.size.height * w.size.depth) :=
        Nat.mul_le_mul_left w.size.width h2le
      rw [hre] at hmul
      omega
    have hHle : w.size.height * 1 ≤ w.size.height * w.size.depth :=
      Nat.mul_le_mul_left w.size.height hDpos
    have hH1 : w.size.height = 1 := by omega
    have hDle : 1 * w.size.depth ≤ w.size.height * w.size.depth :=
      Nat.mul_le_mul_right w.size.depth hHpos
    have hD1 : w.size.depth = 1 := by omega
    have hy0 : toUsize (wrap32 (p.y - w.origin_offset.y)) = 0 := by
      have h0 : p.y - w.origin_offset.y = 0 := by omega
      rw [h0]
      rfl
    have hz0 : toUsize (wrap32 (p.z - w.origin_offset.z)) = 0 := by
      have h0 : p.z - w.origin_offset.z = 0 := by omega
      rw [h0]
      rfl
    have hxbig : toUsize (wrap32 (p.x - w.origin_offset.x)) =
        18446744069414584320 + (p.x - w.origin_offset.x).toNat :=
      toUsize_wrap32_large (by omega) (by omega)
    simp only [get_voxel_index_unchecked]
    rw [h8, hxbig, hy0, hz0, hH1, hD1]
    unfold U64_MOD
    omega

/-- The unchecked index-to-position computation, with the i64 divisions
and remainders re-expressed as casts of Nat operations (all operands are
nonnegative). -/
theorem get_voxel_position_unchecked_eq (w : World) (i : Nat) :
    w.get_voxel_position_unchecked i =
      ⟨wrap32 (((i % w.size.width : Nat) : Int) -
         ((w.size.width / 2 : Nat) : Int)),
       wrap32 (((i / w.size.width % w.size.height : Nat) : Int) -
         ((w.size.height / 2 : Nat) : Int)),
       wrap32 (((i / (w.size.width * w.size.height) : Nat) : Int) -
         ((w.size.depth / 2 : Nat) : Int))⟩ := by
  simp only [get_voxel_position_unchecked]
  congr 1 <;> congr 1 <;> push_cast <;> ring

theorem get_voxel_position_spec {w : World} {i : Nat} (hWF : w.WF)
    (hsd : w.smallDims) (hi : i < w.voxel_data.length) :
    ∃ p, w.get_voxel_position i = some p ∧ w.inBounds p ∧
      w.get_voxel_index p = some i := by
  have hWF2 := hWF
  obtain ⟨h1, h2, h3, h4, h5, h6, h7, h8⟩ := hWF2
  unfold U32_MOD at h1 h2 h3 h4
  have hvol : i < w.size.width * w.size.height * w.size.depth := h8 ▸ hi
  have hWHD : 0 < w.size.width * w.size.height * w.size.depth :=
    Nat.lt_of_le_of_lt (Nat.zero_le i) hvol
  have hW : 0 < w.size.width := by
    rcases Nat.eq_zero_or_pos w.size.width with h0 | h0
    · rw [h0] at hWHD; simp at hWHD
    · exact h0
  have hH : 0 < w.size.height := by
    rcases Nat.eq_zero_or_pos w.size.height with h0 | h0
    · rw [h0] at hWHD; simp at hWHD
    · exact h0
  have hD : 0 < w.size.depth := by
    rcases Nat.eq_zero_or_pos w.size.depth with h0 | h0
    · rw [h0] at hWHD; simp at hWHD
    · exact h0
  have hxq : i % w.size.width < w.size.width := Nat.mod_lt i hW
  have hyq : i / w.size.width % w.size.height < w.size.height :=
    Nat.mod_lt _ hH
  have hzq : i / (w.size.width * w.size.height) < w.size.depth := by
    rw [Nat.div_lt_iff_lt_mul (Nat.mul_pos hW hH)]
    calc i < w.size.width * w.size.height * w.size.depth := hvol
      _ = w.size.depth * (w.size.width * w.size.height) := by ring
  -- arithmetic facts stated over fresh variables, so that omega never
  -- meets a division by a non-literal
  have wkey : ∀ t sz : Nat, t < sz → sz < 4294967296 →
      wrap32 ((t : Int) - ((sz / 2 : Nat) : Int)) =
        (t : Int) - ((sz / 2 : Nat) : Int) := by
    intro t sz ht hsz
    apply wrap32_eq_self
    · unfold I32_MIN; omega
    · unfold I32_MAX; omega
  have nkey : ∀ t sz : Nat, t < sz → sz < 4294967296 →
      nearI32 ((t : Int) - ((sz / 2 : Nat) : Int)) := by
    intro t sz ht hsz
    unfold nearI32
    omega
  have bkey : ∀ t sz : Nat, t < sz →
      (-(((sz / 2 : Nat) : Int)) ≤ (t : Int) - ((sz / 2 : Nat) : Int) ∧
       (t : Int) - ((sz / 2 : Nat) : Int) <
         -(((sz / 2 : Nat) : Int)) + (sz : Int)) := by
    intro t sz ht
    omega
  refine ⟨⟨(↑(i % w.size.width) : Int) - ↑(w.size.width / 2),
           (↑(i / w.size.width % w.size.height) : Int) - ↑(w.size.height / 2),
           (↑(i / (w.size.width * w.size.height)) : Int) - ↑(w.size.depth / 2)⟩,
         ?_, ?_, ?_⟩
  · simp only [get_voxel_position]
    rw [if_neg (by omega)]
    rw [get_voxel_position_unchecked_eq]
    rw [wkey _ _ hxq h1, wkey _ _ hyq h2, wkey _ _ hzq h3]
  · dsimp only [World.inBounds]
    rw [h5, h6, h7]
    exact ⟨bkey _ _ hxq, bkey _ _ hyq, bkey _ _ hzq⟩
  · have hin : w.inBounds
        ⟨(↑(i % w.size.width) : Int) - ↑(w.size.width / 2),
         (↑(i / w.size.width % w.size.height) : Int) - ↑(w.size.height / 2),
         (↑(i / (w.size.width * w.size.height)) : Int) - ↑(w.size.depth / 2)⟩ := by
      dsimp only [World.inBounds]
      rw [h5, h6, h7]
      exact ⟨bkey _ _ hxq, bkey _ _ hyq, bkey _ _ hzq⟩
    have hs := get_voxel_index_some hWF hsd (nkey _ _ hxq h1)
      (nkey _ _ hyq h2) (nkey _ _ hzq h3) hin
    rw [hs.1]
    congr 1
    have tkey : ∀ t sz : Nat,
        ((t : Int) - ((sz / 2 : Nat) : Int) -
          (-((sz / 2 : Nat) : Int))).toNat = t := by
      intro t sz
      omega
    have ex : ((↑(i % w.size.width) : Int) - ↑(w.size.width / 2) -
        w.origin_offset.x).toNat = i % w.size.width := by
      rw [h5]; exact tkey _ _
    have ey : ((↑(i / w.size.width % w.size.height) : Int) -
        ↑(w.size.height / 2) - w.origin_offset.y).toNat =
        i / w.size.width % w.size.height := by
      rw [h6]; exact tkey _ _
    have ez : ((↑(i / (w.size.width * w.size.height)) : Int) -
        ↑(w.size.depth / 2) - w.origin_offset.z).toNat =
        i / (w.size.width * w.size.height) := by
      rw [h7]; exact tkey _ _
    unfold idxOf
    rw [ex, ey, ez]
    have f1 : i % (w.size.width * w.size.height) % w.size.width =
        i % w.size.width := Nat.mod_mod_of_dvd i ⟨w.size.height, rfl⟩
    have f2 : i % (w.size.width * w.size.height) / w.size.width =
        i / w.size.width % w.size.height :=
      Nat.mod_mul_right_div_self i w.size.width w.size.height
    have f3 := Nat.div_add_mod i (w.size.width * w.size.height)
    have f4 := Nat.div_add_mod (i % (w.size.width * w.size.height))
      w.size.width
    calc i / (w.size.width * w.size.height) *
          (w.size.width * w.size.height) +
          i / w.size.width % w.size.height * w.size.width +
          i % w.size.width
        = (w.size.width * w.size.height) *
            (i / (w.size.width * w.size.height)) +
          (w.size.width * (i % (w.size.width * w.size.height) /
            w.size.width) +
           i % (w.size.width * w.size.height) % w.size.width) := by
          rw [← f1, ← f2]; ring
      _ = (w.size.width * w.size.height) *
            (i / (w.size.width * w.size.height)) +
          i % (w.size.width * w.size.height) := by rw [f4]
      _ = i := f3

theorem get_voxel_position_idxOf {w : World} {p : Offset3} (hWF : w.WF)
    (hin : w.inBounds p) :
    w.get_voxel_position (w.idxOf p) = some p := by
  have hidx := idxOf_lt_length hWF hin
  obtain ⟨h1, h2, h3, h4, h5, h6, h7, h8⟩ := hWF
  obtain ⟨⟨hx1, hx2⟩, ⟨hy1, hy2⟩, ⟨hz1, hz2⟩⟩ := hin
  have hW : 0 < w.size.width := by omega
  have hH : 0 < w.size.height := by omega
  have hD : 0 < w.size.depth := by omega
  have dxlt : (p.x - w.origin_offset.x).toNat < w.size.width := by omega
  have dylt : (p.y - w.origin_offset.y).toNat < w.size.height := by omega
  have dzlt : (p.z - w.origin_offset.z).toNat < w.size.depth := by omega
  simp only [get_voxel_position]
  rw [if_neg (by omega)]
  congr 1
  simp only [get_voxel_position_unchecked]
  -- abbreviate the three zero-based coordinates
  have key : ∀ dz dy dx : Nat, dx < w.size.width → dy < w.size.height →
      dz < w.size.depth →
      ((dz * (w.size.width * w.size.height) + dy * w.size.width + dx)
          % w.size.width = dx) ∧
      ((dz * (w.size.width * w.size.height) + dy * w.size.width + dx)
          / w.size.width % w.size.height = dy) ∧
      ((dz * (w.size.width * w.size.height) + dy * w.size.width + dx)
          / (w.size.width * w.size.height) = dz) := by
    intro dz dy dx hdx hdy hdz
    have e1 : dz * (w.size.width * w.size.height) + dy * w.size.width + dx
        = dx + (dz * w.size.height + dy) * w.size.width := by ring
    refine ⟨?_, ?_, ?_⟩
    · rw [e1, Nat.add_mul_mod_self_right]
      exact Nat.mod_eq_of_lt hdx
    · rw [e1, Nat.add_mul_div_right _ _ hW, Nat.div_eq_of_lt hdx]
      rw [Nat.zero_add]
      have e2 : dz * w.size.height + dy = dy + dz * w.size.height := by ring
      rw [e2, Nat.add_mul_mod_self_right]
      exact Nat.mod_eq_of_lt hdy
    · have e3 : dz * (w.size.width * w.size.height) + dy * w.size.width + dx
          = (dx + dy * w.size.width) + dz * (w.size.width * w.size.height) := by
        ring
      rw [e3, Nat.add_mul_div_right _ _ (Nat.mul_pos hW hH)]
      have hsmall : dx + dy * w.size.width < w.size.width * w.size.height := by
        calc dx + dy * w.size.width < w.size.width + dy * w.size.width := by
              omega
          _ = (dy + 1) * w.size.width := by ring
          _ ≤ w.size.height * w.size.width := Nat.mul_le_mul_right _ hdy
          _ = w.size.width * w.size.height := by ring
      rw [Nat.div_eq_of_lt hsmall, Nat.zero_add]
  have hk := key (p.z - w.origin_offset.z).toNat
    (p.y - w.origin_offset.y).toNat (p.x - w.origin_offset.x).toNat
    dxlt dylt dzlt
  have hidx : w.idxOf p = (p.z - w.origin_offset.z).toNat *
      (w.size.width * w.size.height) +
      (p.y - w.origin_offset.y).toNat * w.size.width +
      (p.x - w.origin_offset.x).toNat := rfl
  have cx : ((w.idxOf p : Int) % (w.size.width : Int)) =
      (((w.idxOf p) % w.size.width : Nat) : Int) := by push_cast; ring
  have cy : ((w.idxOf p : Int) / (w.size.width : Int) %
      (w.size.height : Int)) =
      (((w.idxOf p) / w.size.width % w.size.height : Nat) : Int) := by
    push_cast; ring
  have cz : ((w.idxOf p : Int) / ((w.size.width : Int) *
      (w.size.height : Int))) =
      (((w.idxOf p) / (w.size.width * w.size.height) : Nat) : Int) := by
    push_cast; ring
  have c2x : ((w.size.width : Int) / 2) = ((w.size.width / 2 : Nat) : Int) := by
    push_cast; ring
  have c2y : ((w.size.height : Int) / 2) =
      ((w.size.height / 2 : Nat) : Int) := by push_cast; ring
  have c2z : ((w.size.depth : Int) / 2) =
      ((w.size.depth / 2 : Nat) : Int) := by push_cast; ring
  rw [cx, cy, cz, c2x, c2y, c2z]
  rw [hidx] at *
  rw [hk.1, hk.2.1, hk.2.2]
  have gx : ((((p.x - w.origin_offset.x).toNat : Nat) : Int) -
      ((w.size.width / 2 : Nat) : Int)) = p.x := by rw [h5] at *; omega
  have gy : ((((p.y - w.origin_offset.y).toNat : Nat) : Int) -
      ((w.size.height / 2 : Nat) : Int)) = p.y := by rw [h6] at *; omega
  have gz : ((((p.z - w.origin_offset.z).toNat : Nat) : Int) -
      ((w.size.depth / 2 : Nat) : Int)) = p.z := by rw [h7] at *; omega
  rw [gx, gy, gz]
  have px32 := inBounds_isI32 ⟨h1, h2, h3, h4, h5, h6, h7, h8⟩
    ⟨⟨hx1, hx2⟩, ⟨hy1, hy2⟩, ⟨hz1, hz2⟩⟩
  rw [wrap32_eq_self px32.1.1 px32.1.2,
      wrap32_eq_self px32.2.1.1 px32.2.1.2,
      wrap32_eq_self px32.2.2.1 px32.2.2.2]

theorem adjacent_bounds (f : Face) :
    (-1 ≤ f.get_adjacent_voxel_position.x ∧
      f.get_adjacent_voxel_position.x ≤ 1) ∧
    (-1 ≤ f.get_adjacent_voxel_position.y ∧
      f.get_adjacent_voxel_position.y ≤ 1) ∧
    (-1 ≤ f.get_adjacent_voxel_position.z ∧
      f.get_adjacent_voxel_position.z ≤ 1) := by
  cases f <;> exact (by decide)

theorem neighbor_nearI32 {w : World} {p : Offset3} (f : Face) (hWF : w.WF)
    (hin : w.inBounds p) :
    nearI32 (neighbor p f).x ∧ nearI32 (neighbor p f).y ∧
      nearI32 (neighbor p f).z := by
  obtain ⟨h1, h2, h3, h4, h5, h6, h7, h8⟩ := hWF
  unfold U32_MOD at h1 h2 h3
  obtain ⟨⟨hx1, hx2⟩, ⟨hy1, hy2⟩, ⟨hz1, hz2⟩⟩ := hin
  rw [h5] at hx1 hx2
  rw [h6] at hy1 hy2
  rw [h7] at hz1 hz2
  have ha := adjacent_bounds f
  dsimp only [neighbor]
  unfold nearI32
  refine ⟨⟨?_, ?_⟩, ⟨?_, ?_⟩, ⟨?_, ?_⟩⟩ <;> omega

theorem wrapNeighbor_eq_of_inBounds {w : World} {p : Offset3} {f : Face}
    (hWF : w.WF) (hnb : w.inBounds (neighbor p f)) :
    wrapNeighbor p f = neighbor p f := by
  obtain ⟨hx, hy, hz⟩ := inBounds_isI32 hWF hnb
  dsimp only [neighbor] at hx hy hz
  unfold wrapNeighbor neighbor
  congr 1
  · exact wrap32_eq_self hx.1 hx.2
  · exact wrap32_eq_self hy.1 hy.2
  · exact wrap32_eq_self hz.1 hz.2

/-- The bounds check inside set_voxel sees the wrapped neighbor position;
its behaviour coincides with the mathematical neighbor: a valid
mathematical neighbor is not wrapped and resolves to its index, and an
out-of-bounds mathematical neighbor is rejected even after wrapping. -/
theorem gvi_wrapNeighbor {w : World} {p : Offset3} (f : Face) (hWF : w.WF)
    (hsd : w.smallDims) (hin : w.inBounds p) :
    (w.inBounds (neighbor p f) ∧ wrapNeighbor p f = neighbor p f ∧
      w.get_voxel_index (wrapNeighbor p f) = some (w.idxOf (neighbor p f)) ∧
      w.idxOf (neighbor p f) < w.voxel_data.length) ∨
    (¬ w.inBounds (neighbor p f) ∧
      w.get_voxel_index (wrapNeighbor p f) = none) := by
  by_cases hnb : w.inBounds (neighbor p f)
  · left
    have heq := wrapNeighbor_eq_of_inBounds hWF hnb
    have h32 := inBounds_isI32 hWF hnb
    have hs := get_voxel_index_some hWF hsd (isI32_nearI32 h32.1)
      (isI32_nearI32 h32.2.1) (isI32_nearI32 h32.2.2) hnb
    refine ⟨hnb, heq, ?_, hs.2⟩
    rw [heq]
    exact hs.1
  · right
    refine ⟨hnb, ?_⟩
    have hnear := neighbor_nearI32 f hWF hin
    have hWF2 := hWF
    obtain ⟨h1, h2, h3, h4, h5, h6, h7, h8⟩ := hWF2
    have ax := axis_check h1 h5 hnear.1.1 hnear.1.2
    have ay := axis_check h2 h6 hnear.2.1.1 hnear.2.1.2
    have az := axis_check h3 h7 hnear.2.2.1 hnear.2.2.2
    simp only [get_voxel_index]
    rw [if_pos]
    dsimp only [wrapNeighbor]
    rw [toU32_wrap32_sub, toU32_wrap32_sub, toU32_wrap32_sub]
    by_contra hc
    push_neg at hc
    obtain ⟨c1, c2, c3⟩ := hc
    refine hnb ⟨ax.1.mp ?_, ay.1.mp ?_, az.1.mp ?_⟩ <;>
      dsimp only [neighbor] <;> omega

/-- Neighbor lookup without any restriction on the dimensions: a valid
mathematical neighbor is not wrapped and resolves to some index, which
is either its flat index (in range) or at or beyond the store length;
an out-of-bounds mathematical neighbor is rejected even after
wrapping. -/
theorem gvi_wrapNeighbor_cases {w : World} {p : Offset3} (f : Face)
    (hWF : w.WF) (hin : w.inBounds p) :
    (w.inBounds (neighbor p f) ∧ wrapNeighbor p f = neighbor p f ∧
      w.get_voxel_index (wrapNeighbor p f) =
        some (w.get_voxel_index_unchecked (neighbor p f)) ∧
      ((w.get_voxel_index_unchecked (neighbor p f) =
          w.idxOf (neighbor p f) ∧
        w.idxOf (neighbor p f) < w.voxel_data.length) ∨
       w.voxel_data.length ≤
         w.get_voxel_index_unchecked (neighbor p f))) ∨
    (¬ w.inBounds (neighbor p f) ∧
      w.get_voxel_index (wrapNeighbor p f) = none) := by
  by_cases hnb : w.inBounds (neighbor p f)
  · left
    have heq := wrapNeighbor_eq_of_inBounds hWF hnb
    have h32 := inBounds_isI32 hWF hnb
    refine ⟨hnb, heq, ?_, get_voxel_index_unchecked_cases hWF hnb⟩
    rw [heq]
    exact get_voxel_index_of_inBounds hWF (isI32_nearI32 h32.1)
      (isI32_nearI32 h32.2.1) (isI32_nearI32 h32.2.2) hnb
  · right
    refine ⟨hnb, ?_⟩
    have hnear := neighbor_nearI32 f hWF hin
    have hWF2 := hWF
    obtain ⟨h1, h2, h3, h4, h5, h6, h7, h8⟩ := hWF2
    have ax := axis_check h1 h5 hnear.1.1 hnear.1.2
    have ay := axis_check h2 h6 hnear.2.1.1 hnear.2.1.2
    have az := axis_check h3 h7 hnear.2.2.1 hnear.2.2.2
    simp only [get_voxel_index]
    rw [if_pos]
    dsimp only [wrapNeighbor]
    rw [toU32_wrap32_sub, toU32_wrap32_sub, toU32_wrap32_sub]
    by_contra hc
    push_neg at hc
    obtain ⟨c1, c2, c3⟩ := hc
    refine hnb ⟨ax.1.mp ?_, ay.1.mp ?_, az.1.mp ?_⟩ <;>
      dsimp only [neighbor] <;> omega

theorem idxOf_inj {w : World} {p q : Offset3} (hWF : w.WF)
    (hp : w.inBounds p) (hq : w.inBounds q)
    (h : w.idxOf p = w.idxOf q) : p = q := by
  have h1 := get_voxel_position_idxOf hWF hp
  have h2 := get_voxel_position_idxOf hWF hq
  rw [h] at h1
  rw [h1] at h2
  exact Option.some.inj h2

/-- bitflags insert writes the face bit to true. -/
theorem Faces_insert_eq (s : Faces) (f : Face) :
    s.insert f = s.setFlag f true := by
  cases f <;> rfl

/-- bitflags remove writes the face bit to false. -/
theorem Faces_remove_eq (s : Faces) (f : Face) :
    s.remove f = s.setFlag f false := by
  cases f <;> rfl

theorem Faces_contains_setFlag (s : Faces) (f g : Face) (b : Bool) :
    (s.setFlag g b).contains f = if g = f then b else s.contains f := by
  cases g <;> cases f <;> simp [Faces.setFlag, Faces.contains]

/-- Two Faces values agreeing on every face bit are equal. -/
theorem Faces_ext {s u : Faces} (h : ∀ f, s.contains f = u.contains f) :
    s = u := by
  obtain ⟨a1, a2, a3, a4, a5, a6⟩ := s
  obtain ⟨b1, b2, b3, b4, b5, b6⟩ := u
  have h1 := h .PosX
  have h2 := h .NegX
  have h3 := h .PosY
  have h4 := h .NegY
  have h5 := h .PosZ
  have h6 := h .NegZ
  simp only [Faces.contains] at h1 h2 h3 h4 h5 h6
  subst h1 h2 h3 h4 h5 h6
  rfl

/-- Apply one optional face-flag write (cell index, face, value). -/
def applyWrite (w : World) : Option (Nat × Face × Bool) → World
  | none => w
  | some t =>
    { w with voxel_data :=
        (World.modify_faces w.voxel_data t.1
          (fun s => s.setFlag t.2.1 t.2.2)) }

/-- Apply a list of optional face-flag writes in order. -/
def applyWrites (w : World) (ts : List (Option (Nat × Face × Bool))) :
    World :=
  ts.foldl applyWrite w

/-- The face-flag write performed by one iteration of the set_voxel face
loop, read off the environment (geometry and voxel fields) of a base
world. The loop steps only mutate face flags, so the environment is
constant across the six iterations. -/
def touchOf (base : World) (position : Offset3) (voxel : Voxel)
    (target_index : Nat) (face_index : Nat) :
    Option (Nat × Face × Bool) :=
  let face := Face.from_index face_index
  let adjacent := face.get_adjacent_voxel_position
  let other_position : Offset3 :=
    ⟨wrap32 (position.x + adjacent.x),
     wrap32 (position.y + adjacent.y),
     wrap32 (position.z + adjacent.z)⟩
  match base.get_voxel_index other_position with
  | none => some (target_index, face, true)
  | some other_index =>
    match voxel,
        (base.voxel_data.getD other_index VoxelData.default).voxel with
    | .Void, .Void => none
    | .Void, .Tile _ => some (other_index, face.opposite, true)
    | .Tile _, .Void => some (target_index, face, true)
    | .Tile _, .Tile _ => some (other_index, face.opposite, false)

/-- The write among a list that decides a given cell-and-face flag, with
later writes taking precedence. -/
def writeMatch (o : Option (Nat × Face × Bool)) (j : Nat) (f : Face) :
    Option Bool :=
  match o with
  | some t => if t.1 = j ∧ t.2.1 = f then some t.2.2 else none
  | none => none

def lastWrite : List (Option (Nat × Face × Bool)) → Nat → Face → Option Bool
  | [], _, _ => none
  | o :: ts, j, f =>
    match lastWrite ts j f with
    | some b => some b
    | none => writeMatch o j f

theorem applyWrite_size (w : World) (o : Option (Nat × Face × Bool)) :
    (applyWrite w o).size = w.size ∧
    (applyWrite w o).origin_offset = w.origin_offset ∧
    (applyWrite w o).max_tiles = w.max_tiles ∧
    (applyWrite w o).mesh = w.mesh ∧
    (applyWrite w o).texture = w.texture ∧
    (applyWrite w o).voxel_data.length = w.voxel_data.length := by
  cases o with
  | none => exact ⟨rfl, rfl, rfl, rfl, rfl, rfl⟩
  | some t =>
    refine ⟨rfl, rfl, rfl, rfl, rfl, ?_⟩
    simp [applyWrite, World.modify_faces]

theorem applyWrite_voxelAt (w : World) (o : Option (Nat × Face × Bool))
    (j : Nat) : (applyWrite w o).voxelAt j = w.voxelAt j := by
  cases o with
  | none => rfl
  | some t =>
    obtain ⟨i, f, b⟩ := t
    simp only [applyWrite, World.voxelAt, World.modify_faces]
    by_cases hij : i = j
    · subst hij
      by_cases hlen : i < w.voxel_data.length
      · rw [getD_set_self hlen]
      · rw [List.set_eq_of_length_le (Nat.le_of_not_lt hlen)]
    · rw [getD_set_ne hij]

theorem applyWrite_flagAt (w : World) (o : Option (Nat × Face × Bool))
    (j : Nat) (f : Face)
    (hcell : ∀ x, o = some x → x.1 < w.voxel_data.length) :
    (applyWrite w o).flagAt j f =
      (writeMatch o j f).getD (w.flagAt j f) := by
  cases o with
  | none => rfl
  | some t =>
    obtain ⟨i, g, b⟩ := t
    have hlen : i < w.voxel_data.length := hcell _ rfl
    simp only [applyWrite, World.flagAt, World.modify_faces, writeMatch]
    by_cases hij : i = j
    · subst hij
      rw [getD_set_self hlen]
      simp only [Faces_contains_setFlag]
      by_cases hgf : g = f
      · subst hgf
        simp
      · simp [hgf]
    · rw [getD_set_ne hij]
      simp [hij]

theorem applyWrite_data_untouched (w : World)
    (o : Option (Nat × Face × Bool)) (j : Nat)
    (h : ∀ x, o = some x → x.1 ≠ j) :
    (applyWrite w o).voxel_data.getD j VoxelData.default =
      w.voxel_data.getD j VoxelData.default := by
  cases o with
  | none => rfl
  | some t =>
    simp only [applyWrite, World.modify_faces]
    exact getD_set_ne (h t rfl)

theorem applyWrites_fields (w : World)
    (ts : List (Option (Nat × Face × Bool))) :
    (applyWrites w ts).size = w.size ∧
    (applyWrites w ts).origin_offset = w.origin_offset ∧
    (applyWrites w ts).max_tiles = w.max_tiles ∧
    (applyWrites w ts).mesh = w.mesh ∧
    (applyWrites w ts).texture = w.texture ∧
    (applyWrites w ts).voxel_data.length = w.voxel_data.length := by
  induction ts generalizing w with
  | nil => exact ⟨rfl, rfl, rfl, rfl, rfl, rfl⟩
  | cons o ts ih =>
    have h1 := applyWrite_size w o
    have h2 := ih (applyWrite w o)
    exact ⟨h2.1.trans h1.1, h2.2.1.trans h1.2.1, h2.2.2.1.trans h1.2.2.1,
      h2.2.2.2.1.trans h1.2.2.2.1, h2.2.2.2.2.1.trans h1.2.2.2.2.1,
      h2.2.2.2.2.2.trans h1.2.2.2.2.2⟩

theorem applyWrites_voxelAt (w : World)
    (ts : List (Option (Nat × Face × Bool))) (j : Nat) :
    (applyWrites w ts).voxelAt j = w.voxelAt j := by
  induction ts generalizing w with
  | nil => rfl
  | cons o ts ih =>
    exact (ih (applyWrite w o)).trans (applyWrite_voxelAt w o j)

theorem applyWrites_flagAt (w : World)
    (ts : List (Option (Nat × Face × Bool))) (j : Nat) (f : Face)
    (hcell : ∀ o ∈ ts, ∀ x, o = some x → x.1 < w.voxel_data.length) :
    (applyWrites w ts).flagAt j f =
      (lastWrite ts j f).getD (w.flagAt j f) := by
  induction ts generalizing w with
  | nil => rfl
  | cons o ts ih =>
    have hstep : ∀ x, o = some x → x.1 < w.voxel_data.length :=
      hcell o (List.mem_cons_self o ts)
    have hrest : ∀ o2 ∈ ts, ∀ x, o2 = some x →
        x.1 < (applyWrite w o).voxel_data.length := by
      intro o2 ho2 x hx
      rw [(applyWrite_size w o).2.2.2.2.2]
      exact hcell o2 (List.mem_cons_of_mem o ho2) x hx
    have h1 := ih (applyWrite w o) hrest
    simp only [applyWrites, List.foldl] at h1 ⊢
    rw [h1, applyWrite_flagAt w o j f hstep]
    simp only [lastWrite]
    cases lastWrite ts j f with
    | none => rfl
    | some b => rfl

theorem applyWrites_data_untouched (w : World)
    (ts : List (Option (Nat × Face × Bool))) (j : Nat)
    (h : ∀ o ∈ ts, ∀ x, o = some x → x.1 ≠ j) :
    (applyWrites w ts).voxel_data.getD j VoxelData.default =
      w.voxel_data.getD j VoxelData.default := by
  induction ts generalizing w with
  | nil => rfl
  | cons o ts ih =>
    have hstep := h o (List.mem_cons_self o ts)
    have hrest : ∀ o2 ∈ ts, ∀ x, o2 = some x → x.1 ≠ j := fun o2 ho2 =>
      h o2 (List.mem_cons_of_mem o ho2)
    simp only [applyWrites, List.foldl]
    exact (ih (applyWrite w o) hrest).trans
      (applyWrite_data_untouched w o j hstep)

/-- One loop iteration of set_voxel equals applying the write read off a
base world, whenever the current world agrees with the base on geometry
and voxel fields. -/
theorem set_voxel_step_eq {base W : World} (p : Offset3) (v : Voxel)
    (t fi : Nat) (hs : W.size = base.size)
    (ho : W.origin_offset = base.origin_offset)
    (hv : ∀ j, W.voxelAt j = base.voxelAt j) :
    World.set_voxel_step p v t W fi = applyWrite W (touchOf base p v t fi) := by
  have hgvi : ∀ q, W.get_voxel_index q = base.get_voxel_index q := by
    intro q
    simp only [World.get_voxel_index, World.get_voxel_index_unchecked,
      hs, ho]
  simp only [World.set_voxel_step, touchOf, hgvi]
  cases hq : base.get_voxel_index
      ⟨wrap32 (p.x + (Face.from_index fi).get_adjacent_voxel_position.x),
       wrap32 (p.y + (Face.from_index fi).get_adjacent_voxel_position.y),
       wrap32 (p.z + (Face.from_index fi).get_adjacent_voxel_position.z)⟩ with
  | none =>
    simp [applyWrite, Faces_insert_eq]
  | some oi =>
    have hvo : (W.voxel_data.getD oi VoxelData.default).voxel =
        (base.voxel_data.getD oi VoxelData.default).voxel := hv oi
    dsimp only
    rw [hvo]
    cases v with
    | Void =>
      cases hov : (base.voxel_data.getD oi VoxelData.default).voxel with
      | Void => simp [applyWrite]
      | Tile k => simp [applyWrite, Faces_insert_eq]
    | Tile n =>
      cases hov : (base.voxel_data.getD oi VoxelData.default).voxel with
      | Void => simp [applyWrite, Faces_insert_eq]
      | Tile k => simp [applyWrite, Faces_remove_eq]

/-- The whole face loop equals applying the six writes read off the base
world. -/
theorem fold_steps_eq (p : Offset3) (v : Voxel) (t : Nat) :
    ∀ (L : List Nat) (W base : World), W.size = base.size →
      W.origin_offset = base.origin_offset →
      (∀ j, W.voxelAt j = base.voxelAt j) →
      L.foldl (World.set_voxel_step p v t) W =
        applyWrites W (L.map (touchOf base p v t)) := by
  intro L
  induction L with
  | nil =>
    intro W base _ _ _
    rfl
  | cons a L ih =>
    intro W base hs ho hv
    simp only [List.foldl, List.map, applyWrites]
    rw [set_voxel_step_eq p v t a hs ho hv]
    have h1 := applyWrite_size W (touchOf base p v t a)
    exact ih (applyWrite W (touchOf base p v t a)) base
      (h1.1.trans hs) (h1.2.1.trans ho)
      (fun j => (applyWrite_voxelAt W _ j).trans (hv j))

/-- The voxel write at the start of a successful set_voxel. -/
def writeVoxel (w : World) (t : Nat) (v : Voxel) : World :=
  { w with voxel_data :=
      (w.voxel_data.set t
        { w.voxel_data.getD t VoxelData.default with voxel := v }) }

theorem writeVoxel_fields (w : World) (t : Nat) (v : Voxel) :
    (writeVoxel w t v).size = w.size ∧
    (writeVoxel w t v).origin_offset = w.origin_offset ∧
    (writeVoxel w t v).max_tiles = w.max_tiles ∧
    (writeVoxel w t v).mesh = w.mesh ∧
    (writeVoxel w t v).texture = w.texture ∧
    (writeVoxel w t v).voxel_data.length = w.voxel_data.length := by
  refine ⟨rfl, rfl, rfl, rfl, rfl, ?_⟩
  simp [writeVoxel]

theorem writeVoxel_voxelAt_self {w : World} {t : Nat} {v : Voxel}
    (h : t < w.voxel_data.length) : (writeVoxel w t v).voxelAt t = v := by
  simp only [writeVoxel, voxelAt]
  rw [getD_set_self h]

theorem writeVoxel_voxelAt_ne (w : World) (t : Nat) (v : Voxel) {j : Nat}
    (h : t ≠ j) : (writeVoxel w t v).voxelAt j = w.voxelAt j := by
  simp only [writeVoxel, voxelAt]
  rw [getD_set_ne h]

theorem writeVoxel_flagAt (w : World) (t : Nat) (v : Voxel) (j : Nat)
    (f : Face) : (writeVoxel w t v).flagAt j f = w.flagAt j f := by
  simp only [writeVoxel, flagAt]
  by_cases htj : t = j
  · subst htj
    by_cases hlen : t < w.voxel_data.length
    · rw [getD_set_self hlen]
    · rw [List.set_eq_of_length_le (Nat.le_of_not_lt hlen)]
  · rw [getD_set_ne htj]

theorem WF_voxel_data_congr {w : World} {l : List VoxelData} (hWF : w.WF)
    (hl : l.length = w.voxel_data.length) :
    WF { w with voxel_data := l } := by
  obtain ⟨h1, h2, h3, h4, h5, h6, h7, h8⟩ := hWF
  exact ⟨h1, h2, h3, h4, h5, h6, h7, hl.trans h8⟩

theorem inBounds_voxel_data_congr (w : World) (l : List VoxelData)
    (p : Offset3) : inBounds { w with voxel_data := l } p ↔ w.inBounds p :=
  Iff.rfl

/-- The body of a successful set_voxel, expressed through the write-list
abstraction: write the voxel, then apply the six face-flag writes read
off the post-write world. -/
theorem set_voxel_go_eq (w : World) (p : Offset3) (v : Voxel) (t : Nat) :
    w.set_voxel_go p v t =
      (.ok (w.voxelAt t),
       applyWrites (writeVoxel w t v)
         ((List.range Face.MAX_COUNT).map (touchOf (writeVoxel w t v) p v t))) := by
  unfold set_voxel_go
  dsimp only
  exact congrArg (fun z => (Except.ok (w.voxelAt t), z))
    (fold_steps_eq p v t (List.range Face.MAX_COUNT) (writeVoxel w t v)
      (writeVoxel w t v) rfl rfl (fun _ => rfl))

/-- The control flow of set_voxel on the success path. -/
theorem set_voxel_eq_go {w : World} {p : Offset3} {v : Voxel} {t : Nat}
    (hidx : w.get_voxel_index p = some t)
    (hok : ∀ n, v = .Tile n → n < w.max_tiles) :
    w.set_voxel p v = w.set_voxel_go p v t := by
  unfold set_voxel
  rw [hidx]
  cases v with
  | Void => rfl
  | Tile n =>
    dsimp only
    rw [if_neg (Nat.not_le_of_lt (hok n rfl))]

/-- The error paths of set_voxel. -/
theorem set_voxel_position_invalid {w : World} {p : Offset3} {v : Voxel}
    (hidx : w.get_voxel_index p = none) :
    w.set_voxel p v = (.error (.PositionInvalid p), w) := by
  unfold set_voxel
  rw [hidx]

theorem set_voxel_tile_invalid {w : World} {p : Offset3} {t n : Nat}
    (hidx : w.get_voxel_index p = some t) (hn : w.max_tiles ≤ n) :
    w.set_voxel p (.Tile n) = (.error (.TileIndexInvalid n), w) := by
  unfold set_voxel
  rw [hidx]
  dsimp only
  rw [if_pos hn]

/-- Every write of the face loop lands on an in-range cell: the target
cell or the resolved index of a valid neighbor. -/
theorem touchOf_cases {w1 : World} {p : Offset3} {v : Voxel} {t fi : Nat}
    (hWF : w1.WF) (hsd : w1.smallDims) (hin : w1.inBounds p)
    (x : Nat × Face × Bool) (h : touchOf w1 p v t fi = some x) :
    x.1 = t ∨ (w1.inBounds (neighbor p (Face.from_index fi)) ∧
      x.1 = w1.idxOf (neighbor p (Face.from_index fi)) ∧
      x.1 < w1.voxel_data.length) := by
  have hbr := gvi_wrapNeighbor (Face.from_index fi) hWF hsd hin
  dsimp only [wrapNeighbor] at hbr
  simp only [touchOf] at h
  rcases hbr with ⟨hnb, heq, hsome, hlt⟩ | ⟨hnb, hnone⟩
  · rw [hsome] at h
    dsimp only at h
    cases v with
    | Void =>
      cases hov : (w1.voxel_data.getD (w1.idxOf (neighbor p (Face.from_index fi)))
          VoxelData.default).voxel with
      | Void => rw [hov] at h; cases h
      | Tile k =>
        rw [hov] at h
        right
        have := Option.some.inj h
        subst this
        exact ⟨hnb, rfl, hlt⟩
    | Tile n =>
      cases hov : (w1.voxel_data.getD (w1.idxOf (neighbor p (Face.from_index fi)))
          VoxelData.default).voxel with
      | Void =>
        rw [hov] at h
        left
        have := Option.some.inj h
        subst this
        rfl
      | Tile k =>
        rw [hov] at h
        right
        have := Option.some.inj h
        subst this
        exact ⟨hnb, rfl, hlt⟩
  · rw [hnone] at h
    dsimp only at h
    left
    have := Option.some.inj h
    subst this
    rfl

/-- Without the dimension restriction, a write of the face loop lands on
the target index, beyond the store (where it is dropped), or on the
resolved in-range index of a valid neighbor. -/
theorem touchOf_cases_of_inBounds {w1 : World} {p : Offset3} {v : Voxel}
    {t fi : Nat} (hWF : w1.WF) (hin : w1.inBounds p)
    (x : Nat × Face × Bool) (h : touchOf w1 p v t fi = some x) :
    x.1 = t ∨ w1.voxel_data.length ≤ x.1 ∨
    (w1.inBounds (neighbor p (Face.from_index fi)) ∧
      x.1 = w1.idxOf (neighbor p (Face.from_index fi)) ∧
      x.1 < w1.voxel_data.length) := by
  have hbr := gvi_wrapNeighbor_cases (Face.from_index fi) hWF hin
  dsimp only [wrapNeighbor] at hbr
  simp only [touchOf] at h
  rcases hbr with ⟨hnb, heq, hsome, hd⟩ | ⟨hnb, hnone⟩
  · rw [hsome] at h
    dsimp only at h
    have hx1 : x.1 = t ∨ x.1 =
        w1.get_voxel_index_unchecked (neighbor p (Face.from_index fi)) := by
      cases v with
      | Void =>
        cases hov : (w1.voxel_data.getD
            (w1.get_voxel_index_unchecked (neighbor p (Face.from_index fi)))
            VoxelData.default).voxel with
        | Void => rw [hov] at h; cases h
        | Tile k =>
          rw [hov] at h
          right
          have := Option.some.inj h
          subst this
          rfl
      | Tile n =>
        cases hov : (w1.voxel_data.getD
            (w1.get_voxel_index_unchecked (neighbor p (Face.from_index fi)))
            VoxelData.default).voxel with
        | Void =>
          rw [hov] at h
          left
          have := Option.some.inj h
          subst this
          rfl
        | Tile k =>
          rw [hov] at h
          right
          have := Option.some.inj h
          subst this
          rfl
    rcases hx1 with h1 | h1
    · exact Or.inl h1
    · rcases hd with ⟨he, hlt⟩ | hge
      · refine Or.inr (Or.inr ⟨hnb, h1.trans he, ?_⟩)
        rw [h1.trans he]
        exact hlt
      · refine Or.inr (Or.inl ?_)
        rw [h1]
        exact hge
  · rw [hnone] at h
    dsimp only at h
    left
    have := Option.some.inj h
    subst this
    rfl

theorem touchOf_cell_lt {w1 : World} {p : Offset3} {v : Voxel} {t fi : Nat}
    (hWF : w1.WF) (hsd : w1.smallDims) (hin : w1.inBounds p)
    (ht : t < w1.voxel_data.length)
    (x : Nat × Face × Bool) (h : touchOf w1 p v t fi = some x) :
    x.1 < w1.voxel_data.length := by
  rcases touchOf_cases hWF hsd hin x h with h1 | ⟨_, _, h3⟩
  · rw [h1]; exact ht
  · exact h3

theorem get_voxel_index_congr {a b : World} (hs : a.size = b.size)
    (ho : a.origin_offset = b.origin_offset) (q : Offset3) :
    a.get_voxel_index q = b.get_voxel_index q := by
  simp only [get_voxel_index, get_voxel_index_unchecked, hs, ho]

theorem get_voxel_data_eq {w : World} {q : Offset3} {j : Nat}
    (hq : w.get_voxel_index q = some j) (hj : j < w.voxel_data.length) :
    w.get_voxel_data q = some (w.voxel_data.getD j VoxelData.default) := by
  unfold get_voxel_data
  rw [hq]
  exact get?_eq_some_getD hj

theorem get_voxel_eq_voxelAt {w : World} {q : Offset3} {j : Nat}
    (hq : w.get_voxel_index q = some j) (hj : j < w.voxel_data.length) :
    w.get_voxel q = some (w.voxelAt j) := by
  unfold get_voxel
  rw [get_voxel_data_eq hq hj]
  rfl

/-- A checked index at or beyond the store length makes both lookups
fail (Vec::get returns None there). -/
theorem get_voxel_none_of_index_ge {w : World} {q : Offset3} {u : Nat}
    (hq : w.get_voxel_index q = some u)
    (hu : w.voxel_data.length ≤ u) :
    w.get_voxel q = none ∧ w.get_voxel_data q = none := by
  have hd : w.get_voxel_data q = none := by
    unfold get_voxel_data
    rw [hq]
    exact List.get?_eq_none.mpr hu
  refine ⟨?_, hd⟩
  unfold get_voxel
  rw [hd]
  rfl

theorem mem_allFaces (f : Face) : f ∈ allFaces := by
  cases f <;> decide

theorem writeVoxel_eq_self {w : World} {t : Nat} {v : Voxel}
    (ht : t < w.voxel_data.length) (hv : w.voxelAt t = v) :
    writeVoxel w t v = w := by
  unfold writeVoxel
  have he : { w.voxel_data.getD t VoxelData.default with voxel := v } =
      w.voxel_data.getD t VoxelData.default := by
    unfold voxelAt at hv
    rw [← hv]
  rw [he, set_getD_self ht]

theorem touchOf_congr {a b : World} (p : Offset3) (v : Voxel) (t fi : Nat)
    (hs : a.size = b.size) (ho : a.origin_offset = b.origin_offset)
    (hv : ∀ j, a.voxelAt j = b.voxelAt j) :
    touchOf a p v t fi = touchOf b p v t fi := by
  simp only [touchOf, get_voxel_index_congr hs ho]
  cases hq : b.get_voxel_index
      ⟨wrap32 (p.x + (Face.from_index fi).get_adjacent_voxel_position.x),
       wrap32 (p.y + (Face.from_index fi).get_adjacent_voxel_position.y),
       wrap32 (p.z + (Face.from_index fi).get_adjacent_voxel_position.z)⟩ with
  | none => rfl
  | some oi =>
    have hvo : (a.voxel_data.getD oi VoxelData.default).voxel =
        (b.voxel_data.getD oi VoxelData.default).voxel := hv oi
    dsimp only
    rw [hvo]

theorem getD_eq_getElem {l : List VoxelData} {n : Nat} (h : n < l.length)
    (d : VoxelData) : l.getD n d = l[n] := by
  simp [List.getD_eq_getElem?_getD, List.getElem?_eq_getElem h]

theorem writeVoxel_getD_ne {w : World} {t : Nat} {v : Voxel} {j : Nat}
    (h : t ≠ j) :
    (writeVoxel w t v).voxel_data.getD j VoxelData.default =
      w.voxel_data.getD j VoxelData.default := by
  simp only [writeVoxel]
  exact getD_set_ne h

/-- Frame property of the successful set_voxel body, at the index the
checked conversion actually produced: every field except voxel_data is
untouched, the voxel of any other valid cell is untouched, and the
whole record of any valid cell that is neither the target nor one of
its neighbors is untouched. No restriction on the dimensions is needed:
an index at or beyond the store length only yields dropped writes. -/
theorem set_voxel_go_frame {w : World} {p : Offset3} (v : Voxel) {t : Nat}
    (hWF : w.WF) (hin : w.inBounds p)
    (hidx : w.get_voxel_index p = some t) :
    (w.set_voxel_go p v t).2.size = w.size ∧
    (w.set_voxel_go p v t).2.origin_offset = w.origin_offset ∧
    (w.set_voxel_go p v t).2.max_tiles = w.max_tiles ∧
    (w.set_voxel_go p v t).2.mesh = w.mesh ∧
    (w.set_voxel_go p v t).2.texture = w.texture ∧
    (∀ q, w.inBounds q → q ≠ p →
      (w.set_voxel_go p v t).2.get_voxel q = w.get_voxel q) ∧
    (∀ q, w.inBounds q → q ≠ p →
      (∀ f ∈ allFaces, q ≠ neighbor p f) →
      (w.set_voxel_go p v t).2.get_voxel_data q =
        w.get_voxel_data q) := by
  have h32 := inBounds_isI32 hWF hin
  have hof := get_voxel_index_of_inBounds hWF (isI32_nearI32 h32.1)
    (isI32_nearI32 h32.2.1) (isI32_nearI32 h32.2.2) hin
  have htv : t = w.get_voxel_index_unchecked p := by
    rw [hof] at hidx
    exact (Option.some.inj hidx).symm
  have hdich : (t = w.idxOf p ∧ t < w.voxel_data.length) ∨
      w.voxel_data.length ≤ t := by
    rcases get_voxel_index_unchecked_cases hWF hin with ⟨he, hlt⟩ | hge
    · exact Or.inl ⟨htv.trans he, by rw [htv, he]; exact hlt⟩
    · exact Or.inr (by rw [htv]; exact hge)
  have htne : ∀ q, w.inBounds q → q ≠ p → t ≠ w.idxOf q := by
    intro q hqin hqp he
    rcases hdich with ⟨he2, _⟩ | hge
    · exact hqp (idxOf_inj hWF hqin hin (he.symm.trans he2))
    · have := idxOf_lt_length hWF hqin
      omega
  rw [set_voxel_go_eq]
  dsimp only
  set w1 := writeVoxel w t v with hw1def
  set ts := (List.range Face.MAX_COUNT).map (touchOf w1 p v t) with htsdef
  have hf1 := writeVoxel_fields w t v
  have hf2 := applyWrites_fields w1 ts
  have hsize : (applyWrites w1 ts).size = w.size := hf2.1.trans hf1.1
  have horig : (applyWrites w1 ts).origin_offset = w.origin_offset :=
    hf2.2.1.trans hf1.2.1
  have hlen : (applyWrites w1 ts).voxel_data.length =
      w.voxel_data.length := hf2.2.2.2.2.2.trans hf1.2.2.2.2.2
  have hWF1 : w1.WF := WF_voxel_data_congr hWF (by simp)
  have hin1 : w1.inBounds p := hin
  refine ⟨hsize, horig, hf2.2.2.1.trans hf1.2.2.1,
    hf2.2.2.2.1.trans hf1.2.2.2.1, hf2.2.2.2.2.1.trans hf1.2.2.2.2.1,
    ?_, ?_⟩
  · intro q hqin hqp
    have q32 := inBounds_isI32 hWF hqin
    have hqof := get_voxel_index_of_inBounds hWF (isI32_nearI32 q32.1)
      (isI32_nearI32 q32.2.1) (isI32_nearI32 q32.2.2) hqin
    have hgvi2 : (applyWrites w1 ts).get_voxel_index q =
        some (w.get_voxel_index_unchecked q) := by
      rw [get_voxel_index_congr hsize horig q]
      exact hqof
    rcases get_voxel_index_unchecked_cases hWF hqin with ⟨hqe, hqlt⟩ | hqge
    · have hqidx : w.get_voxel_index q = some (w.idxOf q) := by
        rw [hqof, hqe]
      have hgvi2i : (applyWrites w1 ts).get_voxel_index q =
          some (w.idxOf q) := by
        rw [hgvi2, hqe]
      rw [get_voxel_eq_voxelAt hgvi2i (by rw [hlen]; exact hqlt),
          get_voxel_eq_voxelAt hqidx hqlt]
      rw [applyWrites_voxelAt]
      rw [writeVoxel_voxelAt_ne w t v (htne q hqin hqp)]
    · have h1 := get_voxel_none_of_index_ge hqof hqge
      have h2 := get_voxel_none_of_index_ge hgvi2
        (by rw [hlen]; exact hqge)
      rw [h1.1, h2.1]
  · intro q hqin hqp hqnb
    have q32 := inBounds_isI32 hWF hqin
    have hqof := get_voxel_index_of_inBounds hWF (isI32_nearI32 q32.1)
      (isI32_nearI32 q32.2.1) (isI32_nearI32 q32.2.2) hqin
    have hgvi2 : (applyWrites w1 ts).get_voxel_index q =
        some (w.get_voxel_index_unchecked q) := by
      rw [get_voxel_index_congr hsize horig q]
      exact hqof
    rcases get_voxel_index_unchecked_cases hWF hqin with ⟨hqe, hqlt⟩ | hqge
    · have hqidx : w.get_voxel_index q = some (w.idxOf q) := by
        rw [hqof, hqe]
      have hgvi2i : (applyWrites w1 ts).get_voxel_index q =
          some (w.idxOf q) := by
        rw [hgvi2, hqe]
      rw [get_voxel_data_eq hgvi2i (by rw [hlen]; exact hqlt),
          get_voxel_data_eq hqidx hqlt]
      have huntouched : ∀ o ∈ ts, ∀ x, o = some x → x.1 ≠ w.idxOf q := by
        intro o ho x hx
        rw [htsdef] at ho
        obtain ⟨fi, hfi, rfl⟩ := List.mem_map.mp ho
        rcases touchOf_cases_of_inBounds hWF1 hin1 x hx with
          h1 | h1 | ⟨hnb, h2, _⟩
        · rw [h1]
          exact htne q hqin hqp
        · have hl1 : w1.voxel_data.length = w.voxel_data.length :=
            hf1.2.2.2.2.2
          intro he
          rw [he, hl1] at h1
          have := idxOf_lt_length hWF hqin
          omega
        · rw [h2]
          intro heq
          have hnb2 : w.inBounds (neighbor p (Face.from_index fi)) := hnb
          have : neighbor p (Face.from_index fi) = q :=
            idxOf_inj hWF hnb2 hqin heq
          exact hqnb (Face.from_index fi) (mem_allFaces _) this.symm
      rw [applyWrites_data_untouched w1 ts (w.idxOf q) huntouched]
      rw [writeVoxel_getD_ne (htne q hqin hqp)]
    · have h1 := get_voxel_none_of_index_ge hqof hqge
      have h2 := get_voxel_none_of_index_ge hgvi2
        (by rw [hlen]; exact hqge)
      rw [h1.2, h2.2]

theorem flagAt_eq_getElem {w : World} {n : Nat}
    (h : n < w.voxel_data.length) (f : Face) :
    w.flagAt n f = (w.voxel_data[n]).faces.contains f := by
  unfold flagAt
  rw [getD_eq_getElem h]

/-! Mesh generation counting lemmas. -/

theorem emit_face_vertices_length (w : World) (ti : Nat) (wp : Vector3)
    (f : Face) : (w.emit_face_vertices ti wp f).length = 6 := by
  cases f <;> rfl

theorem emit_cell_length (w : World) (acc : List Vertex)
    (cell : Offset3 × VoxelData) :
    (w.emit_cell acc cell).length = acc.length + cellFaceCount cell.2 * 6 := by
  obtain ⟨pos, vox, s⟩ := cell
  cases vox with
  | Void => simp [emit_cell, cellFaceCount]
  | Tile k =>
    obtain ⟨a1, a2, a3, a4, a5, a6⟩ := s
    simp only [emit_cell, cellFaceCount, facesCount]
    have hr : List.range Face.MAX_COUNT = [0, 1, 2, 3, 4, 5] := rfl
    rw [hr]
    simp only [List.foldl]
    cases a1 <;> cases a2 <;> cases a3 <;> cases a4 <;> cases a5 <;>
      cases a6 <;>
      simp [Faces.contains, Face.from_index, emit_face_vertices_length] <;>
      omega

theorem foldl_emit_cells_length (w : World) :
    ∀ (cells : List (Offset3 × VoxelData)) (acc : List Vertex),
      (cells.foldl w.emit_cell acc).length =
        acc.length + (cells.map (fun c => cellFaceCount c.2 * 6)).sum := by
  intro cells
  induction cells with
  | nil =>
    intro acc
    simp
  | cons c cells ih =>
    intro acc
    simp only [List.foldl, List.map, List.sum_cons]
    rw [ih (w.emit_cell acc c), emit_cell_length]
    omega

theorem iterCellsAux_map_snd {w : World} (hWF : w.WF)
    (hsd : w.smallDims) :
    ∀ fuel i, fuel = w.voxel_data.length - i →
      (w.iterCellsAux i fuel).map Prod.snd = w.voxel_data.drop i := by
  intro fuel
  induction fuel with
  | zero =>
    intro i hf
    have hle : w.voxel_data.length ≤ i := by omega
    simp [iterCellsAux, List.drop_eq_nil_of_le hle]
  | succ fuel ih =>
    intro i hf
    have hi : i < w.voxel_data.length := by omega
    obtain ⟨p, hp1, hp2, hp3⟩ := get_voxel_position_spec hWF hsd hi
    have hd : w.get_voxel_data p =
        some (w.voxel_data.getD i VoxelData.default) :=
      get_voxel_data_eq hp3 hi
    simp only [iterCellsAux]
    rw [hp1]
    dsimp only
    rw [hd]
    simp only [List.map_cons]
    rw [ih (i + 1) (by omega)]
    rw [getD_eq_getElem hi]
    exact List.getElem_cons_drop w.voxel_data i hi

theorem iterCells_map_snd {w : World} (hWF : w.WF)
    (hsd : w.smallDims) :
    w.iterCells.map Prod.snd = w.voxel_data := by
  unfold iterCells
  rw [iterCellsAux_map_snd hWF hsd w.voxel_data.length 0 (by omega)]
  exact List.drop_zero w.voxel_data

theorem iterCellsAux_mesh_congr (w : World) (m : Mesh) :
    ∀ fuel i, ({ w with mesh := m } : World).iterCellsAux i fuel =
      w.iterCellsAux i fuel := by
  intro fuel
  induction fuel with
  | zero =>
    intro i
    rfl
  | succ fuel ih =>
    intro i
    simp only [iterCellsAux]
    have e1 : ({ w with mesh := m } : World).get_voxel_position i =
        w.get_voxel_position i := rfl
    rw [e1]
    cases w.get_voxel_position i with
    | none => rfl
    | some p =>
      dsimp only
      have e2 : ({ w with mesh := m } : World).get_voxel_data p =
          w.get_voxel_data p := rfl
      rw [e2]
      cases w.get_voxel_data p with
      | none => rfl
      | some d =>
        dsimp only
        rw [ih]

theorem iterCells_mesh_congr (w : World) (m : Mesh) :
    ({ w with mesh := m } : World).iterCells = w.iterCells := by
  unfold iterCells
  exact iterCellsAux_mesh_congr w m w.voxel_data.length 0

theorem sum_map_cellFaceCount_mul_six (l : List VoxelData) :
    (l.map (fun d => cellFaceCount d * 6)).sum =
      6 * (l.map cellFaceCount).sum := by
  induction l with
  | nil => simp
  | cons d l ih =>
    simp only [List.map_cons, List.sum_cons, ih]
    omega

end World

/-! Concrete worlds used by the scenario claims and the witnesses. -/

/-- The world World::new((3,1,3), 1) constructs. -/
def w313 : World :=
  ⟨⟨3, 1, 3⟩, ⟨-1, 0, -1⟩, List.replicate 9 VoxelData.default, 1, ⟨[]⟩,
   ⟨.D2 ⟨8, 24⟩, .Rgba8Unorm, some ⟨.Nearest, .ClampToEdge⟩⟩⟩

/-- The (3,1,3) world after set_voxel((0,0,0), Tile(0)). -/
def scenario1 : World := (w313.set_voxel ⟨0, 0, 0⟩ (.Tile 0)).2

/-- scenario1 after set_voxel((1,0,0), Tile(0)). -/
def scenario2 : World := (scenario1.set_voxel ⟨1, 0, 0⟩ (.Tile 0)).2

/-- scenario1 after set_voxel((0,0,0), Void): the cell is emptied but
its stale face flags are left behind. -/
def bug2 : World := (scenario1.set_voxel ⟨0, 0, 0⟩ .Void).2

/-- bug2 after set_voxel((1,0,0), Tile(0)). -/
def bug3 : World := (bug2.set_voxel ⟨1, 0, 0⟩ (.Tile 0)).2

/-- bug3 after set_voxel((0,0,0), Tile(0)) again. -/
def bug4 : World := (bug3.set_voxel ⟨0, 0, 0⟩ (.Tile 0)).2

/-- Decidable check of the face-exposure invariant: every in-bounds cell
holding a Tile has each face flag set exactly when the neighbor in that
direction is out of bounds or holds Void. -/
def checkFaceExposure (w : World) : Bool :=
  (List.range w.voxel_data.length).all (fun i =>
    match w.get_voxel_position i with
    | none => true
    | some p =>
      match w.voxelAt i with
      | .Void => true
      | .Tile _ =>
        World.allFaces.all (fun f =>
          w.flagAt i f ==
            (match w.get_voxel_data (World.neighbor p f) with
             | none => true
             | some d =>
               match d.voxel with
               | .Void => true
               | .Tile _ => false)))

/-- The world World::new((4294967295,1,1), 1) constructs: a single row
wider than 2^31. Every dimension and the u32 volume fit u32, so
construction succeeds and the world is well-formed, but the store is
longer than 2^31 cells and the zero-based x-differences of valid
positions reach up to 2^32 - 2. -/
def wideWorld : World :=
  ⟨⟨4294967295, 1, 1⟩, ⟨-2147483647, 0, 0⟩,
   List.replicate 4294967295 VoxelData.default, 1, ⟨[]⟩,
   ⟨.D2 ⟨8, 24⟩, .Rgba8Unorm, some ⟨.Nearest, .ClampToEdge⟩⟩⟩

/-- The wide world with one occupied cell, all six faces flagged,
planted at flat index 2^31. -/
def wideWorld2 : World :=
  { wideWorld with voxel_data :=
      ((List.replicate 4294967295 VoxelData.default).set 2147483648
        ⟨.Tile 0, ⟨true, true, true, true, true, true⟩⟩) }

theorem wideWorld_new : World.new ⟨4294967295, 1, 1⟩ 1 = .ok wideWorld :=
  rfl

theorem wideWorld_length : wideWorld.voxel_data.length = 4294967295 := by
  show (List.replicate 4294967295 VoxelData.default).length = 4294967295
  rw [List.length_replicate]

theorem wideWorld_WF : wideWorld.WF := by
  unfold World.WF
  refine ⟨by decide, by decide, by decide, by decide, by decide,
    by decide, by decide, ?_⟩
  rw [wideWorld_length]
  decide

theorem wideWorld2_length : wideWorld2.voxel_data.length = 4294967295 := by
  show ((List.replicate 4294967295 VoxelData.default).set 2147483648
      ⟨.Tile 0, ⟨true, true, true, true, true, true⟩⟩).length = 4294967295
  rw [List.length_set, List.length_replicate]

theorem wideWorld2_WF : wideWorld2.WF := by
  unfold World.WF
  refine ⟨by decide, by decide, by decide, by decide, by decide,
    by decide, by decide, ?_⟩
  rw [wideWorld2_length]
  decide

/-- The centered position of flat index 2^31 in the wide worlds. -/
theorem wideWorld_position : wideWorld.get_voxel_position 2147483648 =
    some ⟨1, 0, 0⟩ := by
  simp only [World.get_voxel_position]
  rw [wideWorld_length]
  rw [if_neg (by omega)]
  congr 1

/-- The checked index of the valid position (1,0,0) in the wide world:
the x-difference 1 - (-2147483647) = 2^31 wraps to -2^31 in i32 and the
usize cast sign-extends it to 2^64 - 2^31. -/
theorem wideWorld_index : wideWorld.get_voxel_index ⟨1, 0, 0⟩ =
    some 18446744071562067968 := by
  decide

theorem get?_set_ne {l : List VoxelData} {i j : Nat} {a : VoxelData}
    (h : i ≠ j) : (l.set i a).get? j = l.get? j := by
  simp [List.get?_eq_getElem?, List.getElem?_set, h]

theorem get?_replicate_eq {n u : Nat} {d a : VoxelData}
    (h : (List.replicate n d).get? u = some a) : a = d :=
  List.eq_of_mem_replicate (List.get?_mem h)

/-- Every successful cell lookup in the wide tiled world yields the
default record: a position that passes the bounds check resolves either
below 2^31 (missing the planted cell at exactly 2^31) or beyond the
store, where Vec::get fails. -/
theorem wideWorld2_data_default {p : Offset3} {d : VoxelData}
    (h : wideWorld2.get_voxel_data p = some d) :
    d = VoxelData.default := by
  unfold World.get_voxel_data at h
  cases hq : wideWorld2.get_voxel_index p with
  | none =>
    rw [hq] at h
    cases h
  | some u =>
    rw [hq] at h
    have hu : wideWorld2.voxel_data.get? u = some d := h
    have hcase : u < 2147483648 ∨ 4294967295 ≤ u := by
      simp only [World.get_voxel_index] at hq
      by_cases hc : wideWorld2.size.width ≤
          toU32 (p.x - wideWorld2.origin_offset.x) ∨
          wideWorld2.size.height ≤
          toU32 (p.y - wideWorld2.origin_offset.y) ∨
          wideWorld2.size.depth ≤
          toU32 (p.z - wideWorld2.origin_offset.z)
      · rw [if_pos hc] at hq
        cases hq
      · rw [if_neg hc] at hq
        push_neg at hc
        obtain ⟨hcx, hcy, hcz⟩ := hc
        have hu2 := (Option.some.inj hq).symm
        subst hu2
        have hsw : wideWorld2.size.width = 4294967295 := rfl
        have hsh : wideWorld2.size.height = 1 := rfl
        have hsz : wideWorld2.size.depth = 1 := rfl
        have hox : wideWorld2.origin_offset.x = -2147483647 := rfl
        have hoy : wideWorld2.origin_offset.y = 0 := rfl
        have hoz : wideWorld2.origin_offset.z = 0 := rfl
        rw [hsh, hoy] at hcy
        rw [hsz, hoz] at hcz
        simp only [World.get_voxel_index_unchecked]
        rw [hsw, hsh, hox, hoy, hoz]
        unfold toU32 U32_MOD at hcy hcz
        unfold toUsize wrap32 U64_MOD U32_MOD
        omega
    rcases hcase with hlt | hge
    · have hne : (2147483648 : Nat) ≠ u := by omega
      have hrw : wideWorld2.voxel_data =
          (List.replicate 4294967295 VoxelData.default).set 2147483648
            ⟨.Tile 0, ⟨true, true, true, true, true, true⟩⟩ := rfl
      rw [hrw, get?_set_ne hne] at hu
      exact get?_replicate_eq hu
    · have hnone : wideWorld2.voxel_data.get? u = none :=
        List.get?_eq_none.mpr (by rw [wideWorld2_length]; omega)
      rw [hnone] at hu
      cases hu

/-- In any world whose successful cell lookups all yield the default
record, the iterator yields only default cells. -/
theorem iterCellsAux_default (w : World)
    (hall : ∀ p d, w.get_voxel_data p = some d → d = VoxelData.default) :
    ∀ fuel i c, c ∈ w.iterCellsAux i fuel →
      c.2 = VoxelData.default := by
  intro fuel
  induction fuel with
  | zero =>
    intro i c hc
    cases hc
  | succ fuel ih =>
    intro i c hc
    simp only [World.iterCellsAux] at hc
    cases hp : w.get_voxel_position i with
    | none =>
      rw [hp] at hc
      cases hc
    | some q =>
      rw [hp] at hc
      dsimp only at hc
      cases hd : w.get_voxel_data q with
      | none =>
        rw [hd] at hc
        cases hc
      | some d2 =>
        rw [hd] at hc
        dsimp only at hc
        rcases List.mem_cons.mp hc with h1 | h1
        · rw [h1]
          exact hall q d2 hd
        · exact ih (i + 1) c h1

/-- In any world whose successful cell lookups all yield the default
record, generate_mesh emits no vertices. -/
theorem generate_mesh_length_zero (w : World)
    (hall : ∀ p d, w.get_voxel_data p = some d → d = VoxelData.default) :
    w.generate_mesh.mesh.vertices.length = 0 := by
  unfold World.generate_mesh
  dsimp only
  rw [World.foldl_emit_cells_length]
  simp only [List.length_nil, Nat.zero_add]
  apply List.sum_eq_zero
  intro x hx
  obtain ⟨c, hc, rfl⟩ := List.mem_map.mp hx
  have hdef : c.2 = VoxelData.default := by
    unfold World.iterCells at hc
    exact iterCellsAux_default w hall _ _ c hc
  rw [hdef]
  rfl

theorem wideWorld2_mesh_length :
    wideWorld2.generate_mesh.mesh.vertices.length = 0 :=
  generate_mesh_length_zero wideWorld2
    (fun _ d hd => wideWorld2_data_default hd)

theorem sum_map_replicate (f : VoxelData → Nat) (d : VoxelData) :
    ∀ n, ((List.replicate n d).map f).sum = n * f d := by
  intro n
  induction n with
  | zero => simp
  | succ n ih =>
    rw [List.replicate_succ]
    simp only [List.map_cons, List.sum_cons]
    rw [ih, add_one_mul]
    omega

theorem sum_map_set_replicate (f : VoxelData → Nat) (d v : VoxelData) :
    ∀ n k, k < n →
      (((List.replicate n d).set k v).map f).sum =
        (n - 1) * f d + f v := by
  intro n
  induction n with
  | zero =>
    intro k hk
    exact absurd hk (Nat.not_lt_zero k)
  | succ n ih =>
    intro k hk
    cases k with
    | zero =>
      rw [List.replicate_succ, List.set_cons_zero]
      simp only [List.map_cons, List.sum_cons]
      rw [sum_map_replicate]
      simp only [Nat.add_sub_cancel]
      omega
    | succ k =>
      have hk2 : k < n := by omega
      obtain ⟨m, rfl⟩ : ∃ m, n = m + 1 := ⟨n - 1, by omega⟩
      rw [List.replicate_succ, List.set_cons_succ]
      simp only [List.map_cons, List.sum_cons]
      rw [ih k hk2]
      simp only [Nat.add_sub_cancel]
      rw [add_one_mul]
      omega

theorem wideWorld2_sum :
    (wideWorld2.voxel_data.map World.cellFaceCount).sum = 6 := by
  have hrw : wideWorld2.voxel_data =
      (List.replicate 4294967295 VoxelData.default).set 2147483648
        ⟨.Tile 0, ⟨true, true, true, true, true, true⟩⟩ := rfl
  rw [hrw, sum_map_set_replicate World.cellFaceCount _ _ 4294967295
    2147483648 (by omega)]
  decide

/-! Claim theorems. -/

/-- C1: the face-exposure invariant does NOT hold after every successful
set_voxel call. In the freshly constructed (3,1,3) world, the successful
sequence set((0,0,0), Tile 0); set((0,0,0), Void); set((1,0,0), Tile 0);
set((0,0,0), Tile 0) reaches a state where (0,0,0) holds a Tile, its
in-bounds +X neighbor (1,0,0) also holds a Tile, yet the +X face flag of
(0,0,0) is still set: the (Tile, Tile) branch of the update loop clears
only the neighbor's opposite face and never clears a stale flag of the
target itself. The invariant holds after the first edit and is broken
after the fourth. -/
theorem C1_face_exposure_invariant_violated :
    World.new ⟨3, 1, 3⟩ 1 = .ok w313 ∧
    (w313.set_voxel ⟨0, 0, 0⟩ (.Tile 0)).1 = .ok .Void ∧
    (scenario1.set_voxel ⟨0, 0, 0⟩ .Void).1 = .ok (.Tile 0) ∧
    (bug2.set_voxel ⟨1, 0, 0⟩ (.Tile 0)).1 = .ok .Void ∧
    (bug3.set_voxel ⟨0, 0, 0⟩ (.Tile 0)).1 = .ok .Void ∧
    checkFaceExposure scenario1 = true ∧
    checkFaceExposure bug4 = false ∧
    bug4.get_voxel ⟨0, 0, 0⟩ = some (.Tile 0) ∧
    bug4.get_voxel ⟨1, 0, 0⟩ = some (.Tile 0) ∧
    bug4.inBounds ⟨1, 0, 0⟩ ∧
    (bug4.get_voxel_data ⟨0, 0, 0⟩).map (fun d => d.faces.pos_x) =
      some true := by
  decide

/-- C3: end-to-end scenario. In the (3,1,3) world with max_tiles = 1,
setting (0,0,0) to Tile(0) sets all six face flags of that cell and
generate_mesh produces 36 vertices; then setting (1,0,0) to Tile(0)
leaves the +X flag of (0,0,0) and the -X flag of (1,0,0) both unset and
generate_mesh produces 60 vertices. -/
theorem C3_end_to_end_scenario :
    World.new ⟨3, 1, 3⟩ 1 = .ok w313 ∧
    (w313.set_voxel ⟨0, 0, 0⟩ (.Tile 0)).1 = .ok .Void ∧
    (scenario1.get_voxel_data ⟨0, 0, 0⟩).map VoxelData.faces =
      some ⟨true, true, true, true, true, true⟩ ∧
    scenario1.generate_mesh.mesh.vertices.length = 36 ∧
    (scenario1.set_voxel ⟨1, 0, 0⟩ (.Tile 0)).1 = .ok .Void ∧
    (scenario2.get_voxel_data ⟨0, 0, 0⟩).map (fun d => d.faces.pos_x) =
      some false ∧
    (scenario2.get_voxel_data ⟨1, 0, 0⟩).map (fun d => d.faces.neg_x) =
      some false ∧
    scenario2.generate_mesh.mesh.vertices.length = 60 := by
  decide

/-- C2 (amended): coordinate round-trip, under the added hypothesis
that every dimension is at most 2^31. In such a well-formed world,
converting a valid flat index to its centered position and back through
the checked conversions yields the index again, and converting an
in-bounds position to its index and back yields the position again.
Without the added hypothesis the first trip fails in a well-formed
world of size (2^32 - 1, 1, 1): the i32 -> usize cast inside
position-to-index sign-extends wrapped differences at or above 2^31
(see the counterexample). -/
theorem C2_coordinate_round_trip {w : World} (hWF : w.WF)
    (hsd : w.smallDims) :
    (∀ i, i < w.size.width * w.size.height * w.size.depth →
      (w.get_voxel_position i >>= w.get_voxel_index) = some i) ∧
    (∀ p, w.inBounds p →
      (w.get_voxel_index p >>= w.get_voxel_position) = some p) := by
  constructor
  · intro i hi
    have hi2 : i < w.voxel_data.length := by
      rw [hWF.2.2.2.2.2.2.2]
      exact hi
    obtain ⟨p, hp1, hp2, hp3⟩ := World.get_voxel_position_spec hWF hsd hi2
    rw [hp1]
    exact hp3
  · intro p hp
    have h32 := inBounds_isI32 hWF hp
    have hs := World.get_voxel_index_some hWF hsd (isI32_nearI32 h32.1)
      (isI32_nearI32 h32.2.1) (isI32_nearI32 h32.2.2) hp
    rw [hs.1]
    exact World.get_voxel_position_idxOf hWF hp

/-- C2 witness: the round trip evaluated in the concrete (3,1,3) world
at index 4 and position (1,0,1). -/
theorem C2_coordinate_round_trip_witness :
    World.WF w313 ∧ w313.smallDims ∧
    (w313.get_voxel_position 4 >>= w313.get_voxel_index) = some 4 ∧
    (w313.get_voxel_index ⟨1, 0, 1⟩ >>= w313.get_voxel_position) =
      some ⟨1, 0, 1⟩ :=
  ⟨by decide, by decide,
   (C2_coordinate_round_trip (by decide) (by decide)).1 4 (by decide),
   (C2_coordinate_round_trip (by decide) (by decide)).2 ⟨1, 0, 1⟩
     (by decide)⟩

/-- C2 counterexample: in the well-formed constructor-built world of
size (2^32 - 1, 1, 1), the index-to-position-to-index round trip at the
valid flat index 2^31 returns 2^64 - 2^31 instead of 2^31. The centered
position of index 2^31 is (1,0,0); its zero-based x-difference is
exactly 2^31, which the wrapping i32 subtraction sends to -2^31 and the
`as usize` cast sign-extends to 18446744071562067968. -/
theorem C2_coordinate_round_trip_counterexample :
    World.new ⟨4294967295, 1, 1⟩ 1 = .ok wideWorld ∧
    wideWorld.WF ∧
    2147483648 < wideWorld.size.width * wideWorld.size.height *
      wideWorld.size.depth ∧
    (wideWorld.get_voxel_position 2147483648 >>=
      wideWorld.get_voxel_index) = some 18446744071562067968 ∧
    (wideWorld.get_voxel_position 2147483648 >>=
      wideWorld.get_voxel_index) ≠ some 2147483648 := by
  refine ⟨wideWorld_new, wideWorld_WF, by decide, ?_, ?_⟩
  · rw [wideWorld_position]
    show wideWorld.get_voxel_index ⟨1, 0, 0⟩ = some 18446744071562067968
    exact wideWorld_index
  · rw [wideWorld_position]
    show wideWorld.get_voxel_index ⟨1, 0, 0⟩ ≠ some 2147483648
    rw [wideWorld_index]
    decide

/-- C5: bounds rejection. For every i32 position with some coordinate
outside [origin_offset, origin_offset + size) on its axis, get_voxel
returns none and set_voxel fails with PositionInvalid for every voxel
value, leaving the world unchanged. -/
theorem C5_bounds_rejection {w : World} {p : Offset3} (hWF : w.WF)
    (hx : isI32 p.x) (hy : isI32 p.y) (hz : isI32 p.z)
    (hout : ¬ w.inBounds p) :
    w.get_voxel p = none ∧
    ∀ v, w.set_voxel p v = (.error (.PositionInvalid p), w) := by
  have hnone := World.get_voxel_index_none hWF (isI32_nearI32 hx)
    (isI32_nearI32 hy) (isI32_nearI32 hz) hout
  constructor
  · unfold World.get_voxel World.get_voxel_data
    rw [hnone]
    rfl
  · intro v
    exact World.set_voxel_position_invalid hnone

/-- C5 witness: rejection evaluated in the concrete (3,1,3) world at a
position near the extremes of the i32 range. -/
theorem C5_bounds_rejection_witness :
    World.WF w313 ∧ ¬ w313.inBounds ⟨2147483647, 0, -2147483648⟩ ∧
    w313.get_voxel ⟨2147483647, 0, -2147483648⟩ = none ∧
    w313.set_voxel ⟨2147483647, 0, -2147483648⟩ (.Tile 0) =
      (.error (.PositionInvalid ⟨2147483647, 0, -2147483648⟩), w313) :=
  ⟨by decide, by decide,
   (C5_bounds_rejection (by decide) (by decide) (by decide) (by decide)
     (by decide)).1,
   (C5_bounds_rejection (by decide) (by decide) (by decide) (by decide)
     (by decide)).2 (.Tile 0)⟩

/-- C7: tile bound check with atomicity. Writing Tile(id) with
id ≥ max_tiles at any valid position fails with TileIndexInvalid(id) and
returns the world completely unchanged. -/
theorem C7_tile_bound_check {w : World} {p : Offset3} {n : Nat}
    (hWF : w.WF) (hin : w.inBounds p) (hn : w.max_tiles ≤ n) :
    w.set_voxel p (.Tile n) = (.error (.TileIndexInvalid n), w) := by
  have h32 := inBounds_isI32 hWF hin
  have hs := World.get_voxel_index_of_inBounds hWF (isI32_nearI32 h32.1)
    (isI32_nearI32 h32.2.1) (isI32_nearI32 h32.2.2) hin
  exact World.set_voxel_tile_invalid hs hn

/-- C4 (amended): mesh vertex count, under the added hypothesis that
every dimension is at most 2^31. After generate_mesh in such a
well-formed world state, the mesh vertex list holds exactly 6 times the
sum, over all cells whose voxel is a Tile, of that cell's number of set
face flags (Void cells contribute nothing regardless of their flags),
and the result fully replaces the previous mesh contents: it does not
depend on the mesh the world held before the call. Without the added
hypothesis the count is wrong in a well-formed world of size
(2^32 - 1, 1, 1): the iterator's position-to-index round trip fails at
flat index 2^31, the walk stops there, and occupied cells in the upper
half of the store are never emitted (see the counterexample). -/
theorem C4_mesh_vertex_count {w : World} (hWF : w.WF)
    (hsd : w.smallDims) :
    (w.generate_mesh).mesh.vertices.length =
      6 * (w.voxel_data.map World.cellFaceCount).sum ∧
    (∀ m : Mesh, ({ w with mesh := m } : World).generate_mesh =
      w.generate_mesh) := by
  constructor
  · unfold World.generate_mesh
    dsimp only
    rw [World.foldl_emit_cells_length]
    simp only [List.length_nil, Nat.zero_add]
    have h1 : w.iterCells.map (fun c => World.cellFaceCount c.2 * 6) =
        (w.iterCells.map Prod.snd).map
          (fun d => World.cellFaceCount d * 6) := by
      rw [List.map_map]
      rfl
    rw [h1, World.iterCells_map_snd hWF hsd,
      World.sum_map_cellFaceCount_mul_six]
  · intro m
    unfold World.generate_mesh
    dsimp only
    rw [World.iterCells_mesh_congr]
    have he : ({ w with mesh := m } : World).emit_cell = w.emit_cell := rfl
    rw [he]

/-- C4 witness: the count evaluated after the first concrete edit (one
occupied cell with six exposed faces gives 36 vertices), plus the
replacement property against an emptied mesh. -/
theorem C4_mesh_vertex_count_witness :
    World.WF scenario1 ∧ scenario1.smallDims ∧
    scenario1.generate_mesh.mesh.vertices.length =
      6 * (scenario1.voxel_data.map World.cellFaceCount).sum ∧
    ({ scenario1 with mesh := ⟨[]⟩ } : World).generate_mesh =
      scenario1.generate_mesh :=
  ⟨by decide, by decide, (C4_mesh_vertex_count (by decide) (by decide)).1,
   (C4_mesh_vertex_count (by decide) (by decide)).2 ⟨[]⟩⟩

/-- C4 counterexample: a well-formed wide world holding one occupied
cell with all six face flags set, at flat index 2^31. Every position
the iterator walks resolves either below 2^31 (missing the occupied
cell) or beyond the store (stopping the walk at index 2^31), so
generate_mesh emits 0 vertices while the claimed count is 6 * 6 = 36. -/
theorem C4_mesh_vertex_count_counterexample :
    wideWorld2.WF ∧
    wideWorld2.generate_mesh.mesh.vertices.length = 0 ∧
    6 * (wideWorld2.voxel_data.map World.cellFaceCount).sum = 36 ∧
    wideWorld2.generate_mesh.mesh.vertices.length ≠
      6 * (wideWorld2.voxel_data.map World.cellFaceCount).sum := by
  refine ⟨wideWorld2_WF, wideWorld2_mesh_length, ?_, ?_⟩
  · rw [wideWorld2_sum]
  · rw [wideWorld2_mesh_length, wideWorld2_sum]
    decide

/-- C6 (amended): idempotence of set, under the added hypothesis that
every dimension is at most 2^31. In such a well-formed world, calling
set_voxel(p, Tile(0)) twice in a row at a valid position produces
exactly the same face-flag state over all cells as calling it once.
Without the added hypothesis the claim fails in a well-formed world of
size (2^32 - 1, 1, 1): at a valid position the checked index already
exceeds the store length, so the source's direct voxel_data indexing
panics on the first call and no comparison of two completed calls
exists (see the counterexample for the overflowing index). -/
theorem C6_set_idempotent {w : World} {p : Offset3} (hWF : w.WF)
    (hsd : w.smallDims) (hin : w.inBounds p) :
    ((w.set_voxel p (.Tile 0)).2.set_voxel p (.Tile 0)).2.voxel_data.map
        VoxelData.faces =
      (w.set_voxel p (.Tile 0)).2.voxel_data.map VoxelData.faces := by
  have h32 := inBounds_isI32 hWF hin
  have hs := World.get_voxel_index_some hWF hsd (isI32_nearI32 h32.1)
    (isI32_nearI32 h32.2.1) (isI32_nearI32 h32.2.2) hin
  by_cases hmt : w.max_tiles ≤ 0
  · rw [World.set_voxel_tile_invalid hs.1 hmt]
    dsimp only
    rw [World.set_voxel_tile_invalid hs.1 hmt]
  · have hok : ∀ n, Voxel.Tile 0 = Voxel.Tile n → n < w.max_tiles := by
      intro n hn
      cases hn
      omega
    set t := w.idxOf p with htdef
    have ht : t < w.voxel_data.length := hs.2
    rw [World.set_voxel_eq_go hs.1 hok, World.set_voxel_go_eq]
    dsimp only
    set w1 := World.writeVoxel w t (.Tile 0) with hw1def
    set ts := (List.range Face.MAX_COUNT).map
      (World.touchOf w1 p (.Tile 0) t) with htsdef
    set W1 := World.applyWrites w1 ts with hW1def
    have hf1 := World.writeVoxel_fields w t (.Tile 0)
    have hf2 := World.applyWrites_fields w1 ts
    have hsize : W1.size = w.size := hf2.1.trans hf1.1
    have horig : W1.origin_offset = w.origin_offset :=
      hf2.2.1.trans hf1.2.1
    have hmt1 : W1.max_tiles = w.max_tiles :=
      hf2.2.2.1.trans hf1.2.2.1
    have hlen0 : w1.voxel_data.length = w.voxel_data.length :=
      hf1.2.2.2.2.2
    have hlen1 : W1.voxel_data.length = w.voxel_data.length :=
      hf2.2.2.2.2.2.trans hlen0
    have hidx1 : W1.get_voxel_index p = some t := by
      rw [World.get_voxel_index_congr hsize horig p]
      exact hs.1
    have hok1 : ∀ n, Voxel.Tile 0 = Voxel.Tile n → n < W1.max_tiles := by
      intro n hn
      cases hn
      rw [hmt1]
      omega
    rw [World.set_voxel_eq_go hidx1 hok1, World.set_voxel_go_eq]
    dsimp only
    have hvat : W1.voxelAt t = .Tile 0 := by
      rw [hW1def, World.applyWrites_voxelAt]
      exact World.writeVoxel_voxelAt_self ht
    have hw2 : World.writeVoxel W1 t (.Tile 0) = W1 :=
      World.writeVoxel_eq_self (by rw [hlen1]; exact ht) hvat
    rw [hw2]
    have htouch : World.touchOf W1 p (.Tile 0) t =
        World.touchOf w1 p (.Tile 0) t := by
      funext fi
      exact World.touchOf_congr p (.Tile 0) t fi
        hf2.1 hf2.2.1 (fun j => World.applyWrites_voxelAt w1 ts j)
    rw [htouch, ← htsdef]
    -- the in-range condition on the write cells
    have hWF1 : w1.WF := World.WF_voxel_data_congr hWF (by simp)
    have hsd1 : w1.smallDims := hsd
    have hin1 : w1.inBounds p := hin
    have ht1 : t < w1.voxel_data.length := by
      rw [hlen0]
      exact ht
    have hcells : ∀ o ∈ ts, ∀ x, o = some x →
        x.1 < w1.voxel_data.length := by
      intro o ho x hx
      rw [htsdef] at ho
      obtain ⟨fi, hfi, rfl⟩ := List.mem_map.mp ho
      exact World.touchOf_cell_lt hWF1 hsd1 hin1 ht1 x hx
    have hcellsW1 : ∀ o ∈ ts, ∀ x, o = some x →
        x.1 < W1.voxel_data.length := by
      intro o ho x hx
      rw [hW1def, (World.applyWrites_fields w1 ts).2.2.2.2.2]
      exact hcells o ho x hx
    apply List.ext_getElem
    · rw [List.length_map, List.length_map,
        (World.applyWrites_fields W1 ts).2.2.2.2.2]
    · intro n h1 h2
      rw [List.getElem_map, List.getElem_map]
      have hnW1 : n < W1.voxel_data.length := by
        rw [List.length_map] at h2
        exact h2
      have hnA : n < (World.applyWrites W1 ts).voxel_data.length := by
        rw [(World.applyWrites_fields W1 ts).2.2.2.2.2]
        exact hnW1
      apply World.Faces_ext
      intro f
      rw [← World.flagAt_eq_getElem hnA f, ← World.flagAt_eq_getElem hnW1 f]
      rw [World.applyWrites_flagAt W1 ts n f hcellsW1]
      rw [hW1def, World.applyWrites_flagAt w1 ts n f hcells]
      cases World.lastWrite ts n f with
      | none => rfl
      | some b => rfl

/-- C6 witness: the double write evaluated in the concrete (3,1,3)
world at the origin cell. -/
theorem C6_set_idempotent_witness :
    World.WF w313 ∧ w313.smallDims ∧ w313.inBounds ⟨0, 0, 0⟩ ∧
    ((w313.set_voxel ⟨0, 0, 0⟩ (.Tile 0)).2.set_voxel ⟨0, 0, 0⟩
        (.Tile 0)).2.voxel_data.map VoxelData.faces =
      (w313.set_voxel ⟨0, 0, 0⟩ (.Tile 0)).2.voxel_data.map
        VoxelData.faces :=
  ⟨by decide, by decide, by decide,
   C6_set_idempotent (by decide) (by decide) (by decide)⟩

/-- C6 counterexample evidence: in the well-formed constructor-built
wide world the valid position (1,0,0) passes the bounds check with the
wrapped index 2^64 - 2^31, far beyond the store of 2^32 - 1 cells. The
source's set_voxel then evaluates self.voxel_data[target_index] with
that index and panics, so on this world not even one call completes and
no idempotence comparison exists; the claim as stated (over all
well-formed worlds) is false. The amended smallDims hypothesis excludes
exactly these out-of-range target indices. -/
theorem C6_set_idempotent_counterexample :
    World.new ⟨4294967295, 1, 1⟩ 1 = .ok wideWorld ∧
    wideWorld.WF ∧ wideWorld.inBounds ⟨1, 0, 0⟩ ∧
    wideWorld.get_voxel_index ⟨1, 0, 0⟩ = some 18446744071562067968 ∧
    wideWorld.voxel_data.length = 4294967295 ∧
    wideWorld.voxel_data.length < 18446744071562067968 :=
  ⟨wideWorld_new, wideWorld_WF, by decide, wideWorld_index,
   wideWorld_length, by rw [wideWorld_length]; decide⟩

/-- The region validity condition in the words of the spec: positive
extent, origin + extent within the texture bounds, and a buffer of at
least bytesPerPixel * width * height * depth bytes, all read as exact
(non-wrapping) arithmetic. Written to be compared against the code's
checks, which wrap at 2^32. -/
def write_region_spec_valid (texture_size : Extent3) (format_size : Nat)
    (origin : UOffset3) (size : Extent3) (pixels : List Nat) : Prop :=
  (0 < size.width ∧ 0 < size.height ∧ 0 < size.depth) ∧
  (origin.x + size.width ≤ texture_size.width ∧
   origin.y + size.height ≤ texture_size.height ∧
   origin.z + size.depth ≤ texture_size.depth) ∧
  format_size * size.width * size.height * size.depth ≤ pixels.length

instance (a : Extent3) (b : Nat) (c : UOffset3) (d : Extent3)
    (e : List Nat) : Decidable (write_region_spec_valid a b c d e) := by
  unfold write_region_spec_valid
  infer_instance

set_option maxRecDepth 4000 in
/-- C9 counterexample: with u32 wrapping, a write whose origin is near
the top of the u32 range succeeds on an 8 x 24 texture although
origin + extent does not fit in the texture mathematically, so the
claimed characterisation of success is false as stated. -/
theorem C9_texture_write_validation_counterexample :
    Texture.write_texture ⟨8, 24, 1⟩ 4 ⟨4294967288, 0, 0⟩ ⟨8, 24, 1⟩
        (List.replicate 768 0) =
      .ok ⟨⟨4294967288, 0, 0⟩, ⟨8, 24, 1⟩, List.replicate 768 0⟩ ∧
    ¬ write_region_spec_valid ⟨8, 24, 1⟩ 4 ⟨4294967288, 0, 0⟩ ⟨8, 24, 1⟩
        (List.replicate 768 0) := by
  decide

/-- C9 (amended): the texture collaborator's region write succeeds iff
the extent is positive on every component, origin + extent computed in
u32 (mod 2^32) arithmetic fits within the texture size componentwise,
and the buffer holds at least (bytesPerPixel * width * height * depth
mod 2^32) bytes; otherwise it fails with SizeInvalid, OriginInvalid or
PixelsInvalid, in that order of checks. -/
theorem C9_texture_write_validation (texture_size : Extent3)
    (format_size : Nat) (origin : UOffset3) (size : Extent3)
    (pixels : List Nat) :
    (Texture.write_texture texture_size format_size origin size pixels =
        .ok ⟨origin, size, pixels⟩ ↔
      ((0 < size.width ∧ 0 < size.height ∧ 0 < size.depth) ∧
       ((origin.x + size.width) % U32_MOD ≤ texture_size.width ∧
        (origin.y + size.height) % U32_MOD ≤ texture_size.height ∧
        (origin.z + size.depth) % U32_MOD ≤ texture_size.depth) ∧
       (format_size * size.width * size.height * size.depth) % U32_MOD ≤
         pixels.length)) ∧
    (Texture.write_texture texture_size format_size origin size pixels =
        .error .SizeInvalid ↔
      ¬ (0 < size.width ∧ 0 < size.height ∧ 0 < size.depth)) ∧
    (Texture.write_texture texture_size format_size origin size pixels =
        .error .OriginInvalid ↔
      ((0 < size.width ∧ 0 < size.height ∧ 0 < size.depth) ∧
       ¬ ((origin.x + size.width) % U32_MOD ≤ texture_size.width ∧
          (origin.y + size.height) % U32_MOD ≤ texture_size.height ∧
          (origin.z + size.depth) % U32_MOD ≤ texture_size.depth))) ∧
    (Texture.write_texture texture_size format_size origin size pixels =
        .error .PixelsInvalid ↔
      ((0 < size.width ∧ 0 < size.height ∧ 0 < size.depth) ∧
       ((origin.x + size.width) % U32_MOD ≤ texture_size.width ∧
        (origin.y + size.height) % U32_MOD ≤ texture_size.height ∧
        (origin.z + size.depth) % U32_MOD ≤ texture_size.depth) ∧
       ¬ ((format_size * size.width * size.height * size.depth) % U32_MOD ≤
           pixels.length))) := by
  have hviff : Extent3.is_valid size = true ↔
      (0 < size.width ∧ 0 < size.height ∧ 0 < size.depth) := by
    unfold Extent3.is_valid
    simp
    tauto
  unfold Texture.write_texture
  dsimp only
  by_cases hb : Extent3.is_valid size = false
  · rw [if_pos hb]
    have hnpos : ¬ (0 < size.width ∧ 0 < size.height ∧ 0 < size.depth) := by
      rw [← hviff, hb]
      simp
    refine ⟨?_, ?_, ?_, ?_⟩ <;> simp [hnpos]
  · rw [if_neg hb]
    have hbt : Extent3.is_valid size = true := by
      cases hval : Extent3.is_valid size
      · exact absurd hval hb
      · rfl
    have hpos := hviff.mp hbt
    by_cases ho : texture_size.width < (origin.x + size.width) % U32_MOD ∨
        texture_size.height < (origin.y + size.height) % U32_MOD ∨
        texture_size.depth < (origin.z + size.depth) % U32_MOD
    · rw [if_pos ho]
      have hnfit : ¬ ((origin.x + size.width) % U32_MOD ≤
          texture_size.width ∧
          (origin.y + size.height) % U32_MOD ≤ texture_size.height ∧
          (origin.z + size.depth) % U32_MOD ≤ texture_size.depth) := by
        intro hf
        rcases ho with ho | ho | ho <;> omega
      refine ⟨?_, ?_, ?_, ?_⟩ <;> simp [hpos, hnfit]
    · rw [if_neg ho]
      push_neg at ho
      have hfit : ((origin.x + size.width) % U32_MOD ≤
          texture_size.width ∧
          (origin.y + size.height) % U32_MOD ≤ texture_size.height ∧
          (origin.z + size.depth) % U32_MOD ≤ texture_size.depth) := by
        refine ⟨?_, ?_, ?_⟩ <;> omega
      by_cases hp : pixels.length <
          (format_size * size.width * size.height * size.depth) % U32_MOD
      · rw [if_pos hp]
        have hnlen : ¬ ((format_size * size.width * size.height *
            size.depth) % U32_MOD ≤ pixels.length) := by
          omega
        refine ⟨?_, ?_, ?_, ?_⟩ <;> simp [hpos, hfit, hnlen]
      · rw [if_neg hp]
        have hlen : ((format_size * size.width * size.height *
            size.depth) % U32_MOD ≤ pixels.length) := by
          omega
        refine ⟨?_, ?_, ?_, ?_⟩ <;> simp [hpos, hfit, hlen]

/-- A world whose constructor argument max_tiles makes the u32 atlas
width 8 * max_tiles wrap around: 8 * 536870913 = 2^32 + 8, so the
texture is created 8 pixels wide. -/
def atlasOverflowWorld : World :=
  ⟨⟨1, 1, 1⟩, ⟨0, 0, 0⟩, List.replicate 1 VoxelData.default, 536870913,
   ⟨[]⟩, ⟨.D2 ⟨8, 24⟩, .Rgba8Unorm, some ⟨.Nearest, .ClampToEdge⟩⟩⟩

set_option maxRecDepth 4000 in
/-- C8 counterexample: in a constructed world whose atlas width
multiplication wrapped, a tile index below max_tiles with a buffer of
exactly 4 * 8 * 24 bytes does not succeed: the write fails with the
propagated OriginInvalid, contradicting the claim as stated. -/
theorem C8_atlas_write_bounds_counterexample :
    World.new ⟨1, 1, 1⟩ 536870913 = .ok atlasOverflowWorld ∧
    2 < 536870913 ∧
    (List.replicate 768 0).length =
      4 * World.TEXTURE_SIZE.width * World.TEXTURE_SIZE.height ∧
    atlasOverflowWorld.set_voxel_texture 2 .Single (List.replicate 768 0) =
      .error (.Texture .OriginInvalid) := by
  decide

/-- C8 (amended): in any constructed world whose atlas width
8 * max_tiles does not overflow u32 (the only change the wrapping
counterexample forces), for every tile_index < max_tiles under the
Single layout a pixel buffer one byte short of 4 * 8 * 24 bytes is
rejected with DataInvalid, and a buffer of exactly that size succeeds,
submitting a write of the atlas region at horizontal offset
8 * tile_index, full tile height 24 and depth 1. -/
theorem C8_atlas_write_bounds {size : Extent3} {mt t : Nat} {w : World}
    (hnew : World.new size mt = .ok w) (ht : t < mt)
    (hov : World.TEXTURE_SIZE.width * mt < U32_MOD) :
    (∀ pixels : List Nat,
      pixels.length =
        4 * World.TEXTURE_SIZE.width * World.TEXTURE_SIZE.height - 1 →
      w.set_voxel_texture t .Single pixels = .error .DataInvalid) ∧
    (∀ pixels : List Nat,
      pixels.length =
        4 * World.TEXTURE_SIZE.width * World.TEXTURE_SIZE.height →
      w.set_voxel_texture t .Single pixels =
        .ok ⟨⟨World.TEXTURE_SIZE.width * t, 0, 0⟩,
             ⟨World.TEXTURE_SIZE.width, World.TEXTURE_SIZE.height, 1⟩,
             pixels⟩) := by
  have h8 : World.TEXTURE_SIZE.width = 8 := rfl
  have h24 : World.TEXTURE_SIZE.height = 24 := rfl
  rw [h8] at hov
  rw [h8, h24]
  have hov2 : 8 * mt < 4294967296 := hov
  have hmt0 : 0 < mt := by omega
  have hw8 : (8 * mt) % U32_MOD = 8 * mt := by
    unfold U32_MOD
    omega
  -- extract the constructed world
  unfold World.new at hnew
  unfold Texture.new at hnew
  rw [h8, h24] at hnew
  dsimp only at hnew
  rw [if_neg (by
    simp [TextureSize.is_valid, Extent2.is_valid, hw8]
    omega)] at hnew
  dsimp only at hnew
  have hw := Except.ok.inj hnew
  subst hw
  -- evaluate set_voxel_texture on it
  unfold World.set_voxel_texture
  dsimp only
  have h8t : (8 * t) % U32_MOD = 8 * t := by
    unfold U32_MOD
    omega
  constructor
  · intro pixels hlen
    rw [if_neg (by omega)]
    rw [if_pos (by rw [h8, h24]; omega)]
  · intro pixels hlen
    rw [if_neg (by omega)]
    rw [if_neg (by rw [h8, h24]; omega)]
    unfold Texture.write Texture.write_texture
    dsimp only [TextureSize.extent, TextureFormat.block_size]
    rw [h8, h24, hw8, h8t]
    rw [if_neg (by decide)]
    rw [if_neg (by
      unfold U32_MOD
      push_neg
      refine ⟨?_, ?_, ?_⟩ <;> omega)]
    rw [if_neg (by
      rw [hlen]
      unfold U32_MOD
      omega)]

set_option maxRecDepth 4000 in
/-- C8 witness: the amended atlas-write theorem evaluated in the
concrete (3,1,3) world with max_tiles = 1 at tile 0. -/
theorem C8_atlas_write_bounds_witness :
    World.new ⟨3, 1, 3⟩ 1 = .ok w313 ∧
    w313.set_voxel_texture 0 .Single (List.replicate 767 0) =
      .error .DataInvalid ∧
    w313.set_voxel_texture 0 .Single (List.replicate 768 0) =
      .ok ⟨⟨0, 0, 0⟩, ⟨8, 24, 1⟩, List.replicate 768 0⟩ :=
  ⟨by decide,
   by
    have h := (@C8_atlas_write_bounds ⟨3, 1, 3⟩ 1 0 w313 (by decide)
      (by decide) (by decide)).1 (List.replicate 767 0) (by
        set_option maxRecDepth 4000 in decide)
    exact h,
   by
    have h := (@C8_atlas_write_bounds ⟨3, 1, 3⟩ 1 0 w313 (by decide)
      (by decide) (by decide)).2 (List.replicate 768 0) (by
        set_option maxRecDepth 4000 in decide)
    exact h⟩

/-- C10: frame property of set_voxel (implicit claim). A successful
set_voxel(p, v) leaves size, origin_offset, max_tiles, the mesh vertex
list and the texture untouched, leaves the voxel of every other valid
cell untouched, and leaves the whole record of every valid cell other
than p and its neighbors untouched. -/
theorem C10_set_voxel_frame {w : World} {p : Offset3} {v old : Voxel}
    {wp : World} (hWF : w.WF) (hx : isI32 p.x) (hy : isI32 p.y)
    (hz : isI32 p.z) (hcall : w.set_voxel p v = (.ok old, wp)) :
    wp.size = w.size ∧ wp.origin_offset = w.origin_offset ∧
    wp.max_tiles = w.max_tiles ∧ wp.mesh = w.mesh ∧
    wp.texture = w.texture ∧
    (∀ q, w.inBounds q → q ≠ p → wp.get_voxel q = w.get_voxel q) ∧
    (∀ q, w.inBounds q → q ≠ p →
      (∀ f ∈ World.allFaces, q ≠ World.neighbor p f) →
      wp.get_voxel_data q = w.get_voxel_data q) := by
  rcases hq : w.get_voxel_index p with _ | t
  · rw [World.set_voxel_position_invalid hq] at hcall
    injection hcall with h1 h2
    exact Except.noConfusion h1
  · have hin : w.inBounds p := World.inBounds_of_get_voxel_index hWF
      (isI32_nearI32 hx) (isI32_nearI32 hy) (isI32_nearI32 hz) hq
    have hgo : w.set_voxel p v = w.set_voxel_go p v t := by
      cases v with
      | Void => exact World.set_voxel_eq_go hq (fun n hn => by cases hn)
      | Tile n =>
        by_cases hn : w.max_tiles ≤ n
        · rw [World.set_voxel_tile_invalid hq hn] at hcall
          injection hcall with h1 h2
          exact Except.noConfusion h1
        · exact World.set_voxel_eq_go hq
            (fun m hm => by cases hm; exact Nat.lt_of_not_le hn)
    rw [hgo] at hcall
    have hwp : wp = (w.set_voxel_go p v t).2 := by
      rw [hcall]
    have := World.set_voxel_go_frame v hWF hin hq
    rw [← hwp] at this
    exact this

/-- C10 witness: the frame property evaluated on the concrete first
scenario edit, checked at the far corner cell (1,0,1). -/
theorem C10_set_voxel_frame_witness :
    w313.set_voxel ⟨0, 0, 0⟩ (.Tile 0) = (.ok .Void, scenario1) ∧
    scenario1.mesh = w313.mesh ∧
    scenario1.get_voxel ⟨1, 0, 0⟩ = w313.get_voxel ⟨1, 0, 0⟩ ∧
    scenario1.get_voxel_data ⟨1, 0, 1⟩ = w313.get_voxel_data ⟨1, 0, 1⟩ := by
  have h := @C10_set_voxel_frame w313 ⟨0, 0, 0⟩ (.Tile 0) .Void scenario1
    (by decide) (by decide) (by decide) (by decide) (by decide)
  exact ⟨by decide, h.2.2.2.1,
    h.2.2.2.2.2.1 ⟨1, 0, 0⟩ (by decide) (by decide),
    h.2.2.2.2.2.2 ⟨1, 0, 1⟩ (by decide) (by decide) (by decide)⟩

/-- C7 witness: Tile(1) rejected in the concrete world with
max_tiles = 1, store untouched. -/
theorem C7_tile_bound_check_witness :
    World.WF w313 ∧ w313.inBounds ⟨0, 0, 0⟩ ∧ w313.max_tiles ≤ 1 ∧
    w313.set_voxel ⟨0, 0, 0⟩ (.Tile 1) =
      (.error (.TileIndexInvalid 1), w313) :=
  ⟨by decide, by decide, by decide,
   C7_tile_bound_check (by decide) (by decide) (by decide)⟩

end Ndrcraft
